import Mathlib

/-!
# nacosbridge: a shallow embedding of the cache, the scheduler loop, the rebuild
cycle, the projection rules, the Nacos adapter and the status write-back handler

Go maps are association lists (`GoMap`).  A Go map has no duplicate keys and an
unspecified iteration order; here the list order plays the part of the order
one particular run iterates in, `put` keeps the position of an existing key and
appends a fresh one.  A nil map is `none`, reads from it give the zero value.
Pointers are replaced by the values they point to.
-/

namespace NacosBridge

/-! ## Go maps -/

/-- Association-list model of a Go `map[K]V`. -/
abbrev GoMap (K V : Type) := List (K × V)

namespace GoMap

variable {K V : Type} [DecidableEq K]

/-- The two-valued read `v, ok := m[k]`. -/
def get? : GoMap K V → K → Option V
  | [], _ => none
  | (k', v) :: rest, k => if k' = k then some v else get? rest k

/-- The `ok` of `_, ok := m[k]`. -/
def contains (m : GoMap K V) (k : K) : Bool := (get? m k).isSome

/-- The assignment `m[k] = v`. -/
def put : GoMap K V → K → V → GoMap K V
  | [], k, v => [(k, v)]
  | (k', v') :: rest, k, v => if k' = k then (k, v) :: rest else (k', v') :: put rest k v

/-- The builtin `delete(m, k)`. -/
def del (m : GoMap K V) (k : K) : GoMap K V := m.filter (fun p => decide (p.1 ≠ k))

end GoMap

/-- Read `m[k]` from a possibly nil `map[string]string`: `none` when the key is absent. -/
def labelGet? (m : Option (GoMap String String)) (k : String) : Option String :=
  match m with
  | none => none
  | some l => GoMap.get? l k

/-- Read `m[k]` from a possibly nil `map[string]string`, the zero value `""` when absent. -/
def labelGet (m : Option (GoMap String String)) (k : String) : String :=
  (labelGet? m k).getD ""

/-! ## The cluster resource types, reduced to the fields the code reads -/

structure types.NamespacedName where
  Namespace : String
  Name : String
deriving DecidableEq, Repr

structure corev1.ServicePort where
  Name : String
  Port : Int
  NodePort : Int
deriving DecidableEq, Repr

structure corev1.ServiceSpec where
  Ports : List corev1.ServicePort
  Type_ : String
  LoadBalancerIP : String
  ExternalName : String
deriving DecidableEq, Repr

structure corev1.ServiceStatus where
  LoadBalancerIngress : List String
deriving DecidableEq, Repr

structure corev1.Service where
  Namespace : String
  Name : String
  Labels : Option (GoMap String String)
  Annotations : Option (GoMap String String)
  Spec : corev1.ServiceSpec
  Status : corev1.ServiceStatus
deriving DecidableEq, Repr

structure corev1.ConfigMap where
  Namespace : String
  Name : String
  Labels : Option (GoMap String String)
  Data : Option (GoMap String String)
deriving DecidableEq, Repr

structure corev1.NodeAddress where
  Type_ : String
  Address : String
deriving DecidableEq, Repr

structure corev1.Node where
  Namespace : String
  Name : String
  Addresses : List corev1.NodeAddress
deriving DecidableEq, Repr

def corev1.ServiceTypeNodePort : String := "NodePort"
def corev1.ServiceTypeLoadBalancer : String := "LoadBalancer"
def corev1.ServiceTypeExternalName : String := "ExternalName"
def corev1.NodeInternalIP : String := "InternalIP"

/-- A value passed as `interface{}` or `client.Object`: one of the three tracked kinds, or
anything else. -/
inductive Obj where
  | configMap (o : corev1.ConfigMap)
  | service (o : corev1.Service)
  | node (o : corev1.Node)
  | other (payload : String)
deriving DecidableEq, Repr

/-! ## service/cache.go -/

structure Cache where
  configmaps : GoMap types.NamespacedName corev1.ConfigMap
  services : GoMap types.NamespacedName corev1.Service
  nodes : GoMap types.NamespacedName corev1.Node
deriving DecidableEq, Repr

/-- The state `Cache.init` leaves: three empty maps. -/
def Cache.init : Cache := { configmaps := [], services := [], nodes := [] }

/-- The identity `NamespacedName(obj)` of a tracked object (`none` for a value that is no
`client.Object` the cache tracks). -/
def NamespacedName : Obj → Option types.NamespacedName
  | .configMap o => some { Namespace := o.Namespace, Name := o.Name }
  | .service o => some { Namespace := o.Namespace, Name := o.Name }
  | .node o => some { Namespace := o.Namespace, Name := o.Name }
  | .other _ => none

def corev1.ConfigMap.key (o : corev1.ConfigMap) : types.NamespacedName :=
  { Namespace := o.Namespace, Name := o.Name }

def corev1.Service.key (o : corev1.Service) : types.NamespacedName :=
  { Namespace := o.Namespace, Name := o.Name }

def corev1.Node.key (o : corev1.Node) : types.NamespacedName :=
  { Namespace := o.Namespace, Name := o.Name }

/-- The admission predicate of `Cache.Insert`, per kind: a ConfigMap needs non-nil labels with
`nacosbridge.io/config` equal to `"true"`, a Service and a Node always pass, anything else never. -/
def Cache.accepts : Obj → Bool
  | .configMap o => o.Labels.isSome && decide (labelGet o.Labels "nacosbridge.io/config" = "true")
  | .service _ => true
  | .node _ => true
  | .other _ => false

/-- `Cache.Insert`: the returned flag and the cache after the call. -/
def Cache.Insert (c : Cache) (obj : Obj) : Bool × Cache :=
  match obj with
  | .configMap o =>
    if o.Labels.isSome && decide (labelGet o.Labels "nacosbridge.io/config" = "true") then
      (true, { c with configmaps := GoMap.put c.configmaps o.key o })
    else
      (false, c)
  | .service o => (true, { c with services := GoMap.put c.services o.key o })
  | .node o => (true, { c with nodes := GoMap.put c.nodes o.key o })
  | .other _ => (false, c)

/-- `Cache.Delete`: the returned flag and the cache after the call. -/
def Cache.Delete (c : Cache) (obj : Obj) : Bool × Cache :=
  match obj with
  | .configMap o =>
    if GoMap.contains c.configmaps o.key then
      (true, { c with configmaps := GoMap.del c.configmaps o.key })
    else (false, c)
  | .service o =>
    if GoMap.contains c.services o.key then
      (true, { c with services := GoMap.del c.services o.key })
    else (false, c)
  | .node o =>
    if GoMap.contains c.nodes o.key then
      (true, { c with nodes := GoMap.del c.nodes o.key })
    else (false, c)
  | .other _ => (false, c)

/-- Whether the cache holds an entry of the object's kind under the object's identity. -/
def Cache.holds (c : Cache) : Obj → Bool
  | .configMap o => GoMap.contains c.configmaps o.key
  | .service o => GoMap.contains c.services o.key
  | .node o => GoMap.contains c.nodes o.key
  | .other _ => false

/-! ## controller/configmap.go and service/server.go: what reaches the cache -/

inductive Op where
  | opAdd (obj : Obj)
  | opDelete (obj : Obj)
deriving DecidableEq, Repr

/-- `Server.onUpdate`. -/
def Server.onUpdate (c : Cache) : Op → Bool × Cache
  | .opAdd obj => Cache.Insert c obj
  | .opDelete obj => Cache.Delete c obj

/-- Outcome of `Client.Get` in a reconciler. -/
inductive GetResult (α : Type) where
  | found (o : α)
  | notFound
  | failed
deriving DecidableEq, Repr

/-- `ConfigMap.Reconcile`: the operation it hands to the handler, if any.  A not-found object
becomes a delete of an identity-only ConfigMap with empty labels; a found one is added only
when its `nacosbridge.io/config` label is `"true"`. -/
def ConfigMap.Reconcile (req : types.NamespacedName) (r : GetResult corev1.ConfigMap) : Option Op :=
  match r with
  | .notFound =>
    some (.opDelete (.configMap
      { Namespace := req.Namespace, Name := req.Name, Labels := some [], Data := none }))
  | .failed => none
  | .found configmap =>
    let configmap := if configmap.Labels.isNone then { configmap with Labels := some [] } else configmap
    match labelGet? configmap.Labels "nacosbridge.io/config" with
    | some val => if val = "true" then some (.opAdd (.configMap configmap)) else none
    | none => none

/-! ## Go library functions the code calls -/

/-- Split a character list at every occurrence of `sep`; always at least one piece. -/
def splitChars (sep : Char) : List Char → List (List Char)
  | [] => [[]]
  | c :: cs =>
    if c = sep then [] :: splitChars sep cs
    else
      match splitChars sep cs with
      | [] => [[c]]
      | h :: t => (c :: h) :: t

/-- `strings.Split(s, sep)` for a separator of one character, as at every call site. -/
def strings.Split (s : String) (sep : Char) : List String :=
  (splitChars sep s.data).map String.mk

/-- `strings.HasPrefix(s, pfx)`. -/
def strings.HasPrefix (s pfx : String) : Bool := pfx.data.isPrefixOf s.data

/-- `strings.TrimPrefix(s, pfx)`. -/
def strings.TrimPrefix (s pfx : String) : String :=
  if strings.HasPrefix s pfx then String.mk (s.data.drop pfx.data.length) else s

/-- Value of a list of decimal digits. -/
def digitsValue (ds : List Char) : Nat :=
  ds.foldl (fun n c => n * 10 + (c.toNat - '0'.toNat)) 0

/-- `strconv.Atoi` on a 64-bit platform: an optional sign, then one or more decimal digits,
the value within the range of `int`; `none` stands for a non-nil error. -/
def strconv.Atoi (s : String) : Option Int :=
  match s.data with
  | [] => none
  | c :: cs =>
    let neg := decide (c = '-')
    let ds := if c = '-' ∨ c = '+' then cs else c :: cs
    if ds.isEmpty || !(ds.all Char.isDigit) then none
    else
      let v : Int := if neg then -(digitsValue ds : Int) else (digitsValue ds : Int)
      if v < -(2 : Int) ^ 63 ∨ (2 : Int) ^ 63 - 1 < v then none else some v

/-- The conversion `int32(v)` of an `int`: wrap into the 32-bit two's-complement range. -/
def int32 (v : Int) : Int := (v + 2 ^ 31) % 2 ^ 32 - 2 ^ 31

/-- The conversion `uint64(v)` of a signed integer. -/
def uint64 (v : Int) : Nat := (v % 2 ^ 64).toNat

/-! ## service/generate.go -/

def REGISTRY_CONFIG : String := "nacosbridge.io/config"
def REGISTRY_SERVICE_NAME : String := "nacosbridge.io/service"
def REGISTRY_SERVICE_NAMESPACE : String := "nacosbridge.io/namespace"
def REGISTRY_SERVICE_TYPE : String := "nacosbridge.io/service-type"
def REGISTRY_SERVICE_EXTERNAL : String := "nacosbridge.io/external"
def REGISTRY_OPENPORT : String := "nacosbridge.io/openport"
def REGISTRY_PORTNAME : String := "nacosbridge.io/portname-"
def REGISTRY_SERVICE_DOMIN : String := "nacosbridge.io/service-domin"
def REGISTRY_SERVICE_DOMIN_PORT : String := "nacosbridge.io/service-domain-"
def SERVICE_MATEDATA : String := "nacosbridge.io/matedata"

/-- The record the projection hands to a registry (`type Service struct`). -/
structure Service where
  Name : String
  Port : Int
  IP : List String
  NacosNs : String
  Metadata : GoMap String String
deriving DecidableEq, Repr

/-- Read `m[k]` from a `map[string]bool`: `false` when absent. -/
def boolGet (m : GoMap String Bool) (k : String) : Bool := (GoMap.get? m k).getD false

/-- `GeneratePrefixConfig`. -/
def GeneratePrefixConfig (pfx : String) (config : Option (GoMap String String)) :
    GoMap String String :=
  match config with
  | none => []
  | some cfg =>
    if pfx = "" then []
    else
      let hasPrefix := pfx ++ "."
      cfg.foldl (fun newConfig kv =>
        if strings.HasPrefix kv.1 hasPrefix then
          GoMap.put newConfig (strings.TrimPrefix kv.1 pfx) kv.2
        else newConfig) []

/-- The `baseServiceName` every strategy starts from. -/
def baseServiceName (svc : corev1.Service) : String :=
  match labelGet? svc.Labels REGISTRY_SERVICE_NAME with
  | some customName => customName
  | none => svc.Name

/-- The registry namespace every strategy uses. -/
def registryNamespace (svc : corev1.Service) : String :=
  if labelGet svc.Labels REGISTRY_SERVICE_NAMESPACE ≠ "" then
    labelGet svc.Labels REGISTRY_SERVICE_NAMESPACE
  else ""

/-- The `openPortName` set built from the open-port label. -/
def openPortName (svc : corev1.Service) : GoMap String Bool :=
  match labelGet? svc.Labels REGISTRY_OPENPORT with
  | some ns => (strings.Split ns ',').foldl (fun m name => GoMap.put m name true) []
  | none => []

/-- The items of the comma-separated open-port label of a service; none when the label is
absent. -/
def openPortItems (svc : corev1.Service) : List String :=
  match labelGet? svc.Labels REGISTRY_OPENPORT with
  | some ns => strings.Split ns ','
  | none => []

/-- The record name chosen for one port. -/
def portServiceName (svc : corev1.Service) (port : corev1.ServicePort) : String :=
  if svc.Labels.isSome then
    if labelGet svc.Labels (REGISTRY_PORTNAME ++ port.Name) ≠ "" then
      labelGet svc.Labels (REGISTRY_PORTNAME ++ port.Name)
    else baseServiceName svc
  else baseServiceName svc

/-- `generateServiceInfosForCluster`. -/
def generateServiceInfosForCluster (svc : corev1.Service) : List Service :=
  let namespace_ := registryNamespace svc
  let openPorts := openPortName svc
  let metadata := GeneratePrefixConfig SERVICE_MATEDATA svc.Annotations
  svc.Spec.Ports.filterMap (fun port =>
    if !boolGet openPorts port.Name then none
    else
      let domin := svc.Name ++ "." ++ svc.Namespace ++ ".svc.cluster.local"
      some { Name := portServiceName svc port, NacosNs := namespace_, IP := [domin],
             Port := port.Port, Metadata := metadata })

/-- `generateServiceInfosForExternal`; a nil `portMapper` is `none`. -/
def generateServiceInfosForExternal (svc : corev1.Service) (ips : List String)
    (portMapper : Option (corev1.ServicePort → Int)) : List Service :=
  let namespace_ := registryNamespace svc
  let openPorts := openPortName svc
  let metadata := GeneratePrefixConfig SERVICE_MATEDATA svc.Annotations
  svc.Spec.Ports.filterMap (fun port =>
    if !boolGet openPorts port.Name then none
    else
      let portNumber : Int :=
        match portMapper with
        | some f => f port
        | none => port.Port
      some { Name := portServiceName svc port, NacosNs := namespace_, IP := ips,
             Port := portNumber, Metadata := metadata })

/-- `generateServiceInfosForGateway`. -/
def generateServiceInfosForGateway (svc : corev1.Service) : List Service :=
  let namespace_ := registryNamespace svc
  match labelGet? svc.Labels REGISTRY_SERVICE_DOMIN with
  | none => []
  | some domin =>
    let metadata := GeneratePrefixConfig SERVICE_MATEDATA svc.Annotations
    (svc.Labels.getD []).filterMap (fun kv =>
      if strings.HasPrefix kv.1 REGISTRY_SERVICE_DOMIN_PORT then
        match strconv.Atoi kv.2 with
        | none => none
        | some port =>
          some { Name := baseServiceName svc, NacosNs := namespace_, IP := [domin],
                 Port := int32 port, Metadata := metadata }
      else none)

/-- `GenerateServiceInfos`. -/
def GenerateServiceInfos (svc : corev1.Service) (nodeIps : List String)
    (selectNamespace : GoMap String Bool) : List Service :=
  if svc.Labels.isNone then []
  else if !(labelGet? svc.Labels REGISTRY_SERVICE_NAME).isSome then []
  else if decide (0 < selectNamespace.length) && !boolGet selectNamespace svc.Namespace then []
  else if labelGet svc.Labels REGISTRY_SERVICE_TYPE = "cluster" then
    generateServiceInfosForCluster svc
  else if labelGet svc.Labels REGISTRY_SERVICE_TYPE = "external" then
    if svc.Spec.Type_ = corev1.ServiceTypeLoadBalancer then
      if svc.Spec.LoadBalancerIP ≠ "" then
        generateServiceInfosForExternal svc [svc.Spec.LoadBalancerIP] none
      else []
    else if svc.Spec.Type_ = corev1.ServiceTypeExternalName then
      if svc.Spec.ExternalName ≠ "" then
        generateServiceInfosForExternal svc [svc.Spec.ExternalName] none
      else []
    else if svc.Spec.Type_ = corev1.ServiceTypeNodePort then
      if 0 < nodeIps.length then
        generateServiceInfosForExternal svc nodeIps (some (fun port => port.NodePort))
      else []
    else []
  else if labelGet svc.Labels REGISTRY_SERVICE_TYPE = "gateway" then
    generateServiceInfosForGateway svc
  else []

/-! ## service/nacos.go

The registry backend is a parameter: a world state `W` and, for each SDK call the adapter makes,
the answer and the next world.  Every SDK call is appended to a call log, and to a failure log
as well when it is answered with an error or with `success = false`; every `registerService` /
`deregisterService` the `Build` loop runs is appended to an operation log. -/

structure constant.ClientConfig where
  NamespaceId : String
  TimeoutMs : Nat
  NotLoadCacheAtStart : Bool
  LogDir : String
  CacheDir : String
  LogLevel : String
  Username : String
  Password : String
deriving DecidableEq, Repr

structure constant.ServerConfig where
  IpAddr : String
  Port : Nat
deriving DecidableEq, Repr

structure vo.NacosClientParam where
  ClientConfig : constant.ClientConfig
  ServerConfigs : List constant.ServerConfig
deriving DecidableEq, Repr

/-- A naming client: the handle `clients.NewNamingClient` returns, known by its parameters. -/
structure NamingClient where
  param : vo.NacosClientParam
deriving DecidableEq, Repr

structure vo.RegisterInstanceParam where
  Ip : String
  Port : Nat
  ServiceName : String
  Weight : Nat
  Enable : Bool
  Healthy : Bool
  Ephemeral : Bool
  Metadata : GoMap String String
deriving DecidableEq, Repr

structure vo.DeregisterInstanceParam where
  Ip : String
  Port : Nat
  ServiceName : String
  Ephemeral : Bool
deriving DecidableEq, Repr

/-- One call into the Nacos SDK. -/
inductive Call where
  | NewNamingClient (p : vo.NacosClientParam)
  | RegisterInstance (client : NamingClient) (p : vo.RegisterInstanceParam)
  | DeregisterInstance (client : NamingClient) (p : vo.DeregisterInstanceParam)
deriving DecidableEq, Repr

/-- The Nacos SDK as seen by the adapter: `NewNamingClient` answers with an error or none,
the two instance calls with `(success, err)`. -/
structure Backend (W : Type) where
  NewNamingClient : W → vo.NacosClientParam → Option String × W
  RegisterInstance : W → NamingClient → vo.RegisterInstanceParam → (Bool × Option String) × W
  DeregisterInstance : W → NamingClient → vo.DeregisterInstanceParam → (Bool × Option String) × W

/-- The adapter (`type Nacos struct`), after `init` has made its maps. -/
structure Nacos where
  address : String
  port : Int
  username : String
  password : String
  namespaceClients : GoMap String NamingClient
  newService : GoMap String Service
  oldService : GoMap String Service
deriving DecidableEq, Repr

/-- The adapter right after `init`. -/
def Nacos.init : Nacos :=
  { address := "", port := 0, username := "", password := "",
    namespaceClients := [], newService := [], oldService := [] }

/-- One `registerService` (`register = true`) or `deregisterService` run by `Build`, with the
error it returned. -/
structure OpRecord where
  register : Bool
  service : Service
  err : Option String
deriving DecidableEq, Repr

/-- Everything a method of the adapter can change: the adapter, the backend world and the logs. -/
structure Run (W : Type) where
  nacos : Nacos
  world : W
  calls : List Call
  failed : List Call
  ops : List OpRecord

/-- `Nacos.Config`.  The error of an invalid port is the text `invalid nacos port` alone, without
the text of the `strconv` error the code appends to it. -/
def Nacos.Config (n : Nacos) (config : GoMap String String) : Option String × Nacos :=
  match GoMap.get? config "address" with
  | none => (some "nacos address is required", n)
  | some address =>
    let n := { n with address := address }
    match (match GoMap.get? config "port" with
           | some portStr =>
             match strconv.Atoi portStr with
             | none => (none : Option Nacos)
             | some port => some { n with port := port }
           | none => some { n with port := 8848 }) with
    | none => (some "invalid nacos port", n)
    | some n =>
      let n := match GoMap.get? config "username" with
        | some username => { n with username := username }
        | none => n
      let n := match GoMap.get? config "password" with
        | some password => { n with password := password }
        | none => n
      (none, n)

/-- `Nacos.generateNamespaceClient`: a stored client is returned as it is; otherwise a client is
created through the SDK and returned.  The method assigns nothing to the adapter. -/
def Nacos.generateNamespaceClient {W : Type} (B : Backend W) (s : Run W) (ns : String) :
    Except String NamingClient × Run W :=
  match GoMap.get? s.nacos.namespaceClients ns with
  | some client => (.ok client, s)
  | none =>
    let clientConfig : constant.ClientConfig :=
      { NamespaceId := ns, TimeoutMs := 5000, NotLoadCacheAtStart := true,
        LogDir := "/tmp/nacos/log", CacheDir := "/tmp/nacos/cache", LogLevel := "debug",
        Username := "", Password := "" }
    let clientConfig :=
      if s.nacos.username ≠ "" ∧ s.nacos.password ≠ "" then
        { clientConfig with Username := s.nacos.username, Password := s.nacos.password }
      else clientConfig
    let serverConfigs : List constant.ServerConfig :=
      [{ IpAddr := s.nacos.address, Port := uint64 s.nacos.port }]
    let param : vo.NacosClientParam :=
      { ClientConfig := clientConfig, ServerConfigs := serverConfigs }
    let r := B.NewNamingClient s.world param
    let s := { s with world := r.2, calls := s.calls ++ [Call.NewNamingClient param],
                      failed := if r.1.isSome then s.failed ++ [Call.NewNamingClient param]
                                else s.failed }
    match r.1 with
    | some err => (.error ("failed to create namespace client for " ++ ns ++ ": " ++ err), s)
    | none => (.ok { param := param }, s)

/-- The request `registerService` builds for one address of a record. -/
def Nacos.registerParam (service : Service) (ip : String) : vo.RegisterInstanceParam :=
  { Ip := ip, Port := uint64 service.Port, ServiceName := service.Name, Weight := 10,
    Enable := true, Healthy := true, Ephemeral := false,
    Metadata := [("created_by", "nacosbridge.io"), ("cluster", "k8s.service")] }

/-- The request `deregisterService` builds for one address of a record. -/
def Nacos.deregisterParam (service : Service) (ip : String) : vo.DeregisterInstanceParam :=
  { Ip := ip, Port := uint64 service.Port, ServiceName := service.Name, Ephemeral := false }

/-- The loop `for _, ip := range service.IP` of `registerService`. -/
def Nacos.registerInstances {W : Type} (B : Backend W) (client : NamingClient) (service : Service) :
    List String → Run W → Option String × Run W
  | [], s => (none, s)
  | ip :: ips, s =>
    let param := Nacos.registerParam service ip
    let r := B.RegisterInstance s.world client param
    let s := { s with world := r.2, calls := s.calls ++ [Call.RegisterInstance client param],
                      failed := if r.1.2.isSome || !r.1.1 then
                                  s.failed ++ [Call.RegisterInstance client param]
                                else s.failed }
    match r.1.2 with
    | some err => (some ("failed to register service " ++ service.Name ++ ": " ++ err), s)
    | none =>
      if !r.1.1 then
        (some ("failed to register service " ++ service.Name ++ ": service not registered"), s)
      else Nacos.registerInstances B client service ips s

/-- `Nacos.registerService`. -/
def Nacos.registerService {W : Type} (B : Backend W) (s : Run W) (service : Service) :
    Option String × Run W :=
  let ns := service.NacosNs
  if ns = "" then (some "namespace is required", s)
  else
    match Nacos.generateNamespaceClient B s ns with
    | (.error err, s) =>
      (some ("failed to generate namespace client for " ++ ns ++ ": " ++ err), s)
    | (.ok nacosClient, s) => Nacos.registerInstances B nacosClient service service.IP s

/-- The loop `for _, ip := range service.IP` of `deregisterService`. -/
def Nacos.deregisterInstances {W : Type} (B : Backend W) (client : NamingClient)
    (service : Service) : List String → Run W → Option String × Run W
  | [], s => (none, s)
  | ip :: ips, s =>
    let param := Nacos.deregisterParam service ip
    let r := B.DeregisterInstance s.world client param
    let s := { s with world := r.2, calls := s.calls ++ [Call.DeregisterInstance client param],
                      failed := if r.1.2.isSome || !r.1.1 then
                                  s.failed ++ [Call.DeregisterInstance client param]
                                else s.failed }
    match r.1.2 with
    | some err => (some ("deregister instance failed: " ++ err), s)
    | none =>
      if !r.1.1 then (some "deregister instance failed: service not deregistered", s)
      else Nacos.deregisterInstances B client service ips s

/-- `Nacos.deregisterService`. -/
def Nacos.deregisterService {W : Type} (B : Backend W) (s : Run W) (service : Service) :
    Option String × Run W :=
  let ns := service.NacosNs
  if ns = "" then (some "namespace is required", s)
  else
    match Nacos.generateNamespaceClient B s ns with
    | (.error err, s) =>
      (some ("failed to generate namespace client for " ++ ns ++ ": " ++ err), s)
    | (.ok nacosClient, s) => Nacos.deregisterInstances B nacosClient service service.IP s

/-- The map key `fmt.Sprintf("%s.%s.%s", svc.NacosNs, svc.Name, ip)`. -/
def Nacos.svcName (nacosNs name ip : String) : String :=
  nacosNs ++ "." ++ name ++ "." ++ ip

/-- The first loop of `Build`: every address of every record is entered into `newService` under
its key unless the key is there already. -/
def Nacos.mergeNew (newService : GoMap String Service) (services : List Service) :
    GoMap String Service :=
  services.foldl (fun m svc =>
    svc.IP.foldl (fun m ip =>
      let svcName := Nacos.svcName svc.NacosNs svc.Name ip
      if GoMap.contains m svcName then m else GoMap.put m svcName svc) m) newService

/-- The records stored under the keys of `a` that `b` lacks, in the iteration order of `a`. -/
def Nacos.onlyIn (a b : GoMap String Service) : List Service :=
  a.filterMap (fun kv => if GoMap.contains b kv.1 then none else some kv.2)

/-- The loop `for _, svc := range addSvc`: stops at the first error. -/
def Nacos.registerAll {W : Type} (B : Backend W) : List Service → Run W → Option String × Run W
  | [], s => (none, s)
  | svc :: rest, s =>
    let r := Nacos.registerService B s svc
    let s := { r.2 with ops := r.2.ops ++ [{ register := true, service := svc, err := r.1 }] }
    match r.1 with
    | some err => (some ("failed to register service " ++ svc.Name ++ ": " ++ err), s)
    | none => Nacos.registerAll B rest s

/-- The loop `for _, svc := range delSvc`: stops at the first error. -/
def Nacos.deregisterAll {W : Type} (B : Backend W) : List Service → Run W → Option String × Run W
  | [], s => (none, s)
  | svc :: rest, s =>
    let r := Nacos.deregisterService B s svc
    let s := { r.2 with ops := r.2.ops ++ [{ register := false, service := svc, err := r.1 }] }
    match r.1 with
    | some err => (some ("failed to deregister service " ++ svc.Name ++ ": " ++ err), s)
    | none => Nacos.deregisterAll B rest s

/-- `Nacos.Build`: the returned error (`none` for nil) and the state after the call. -/
def Nacos.Build {W : Type} (B : Backend W) (s : Run W) (services : List Service) :
    Option String × Run W :=
  let s := { s with nacos := { s.nacos with
    newService := Nacos.mergeNew s.nacos.newService services } }
  let addSvc := Nacos.onlyIn s.nacos.newService s.nacos.oldService
  let delSvc := Nacos.onlyIn s.nacos.oldService s.nacos.newService
  match Nacos.registerAll B addSvc s with
  | (some err, s) => (some err, s)
  | (none, s) =>
    match Nacos.deregisterAll B delSvc s with
    | (some err, s) => (some err, s)
    | (none, s) =>
      (none, { s with nacos := { s.nacos with
        oldService := s.nacos.newService, newService := [] } })

/-- A backend on which every call succeeds. -/
def Backend.allOk : Backend Unit :=
  { NewNamingClient := fun w _ => (none, w),
    RegisterInstance := fun w _ _ => ((true, none), w),
    DeregisterInstance := fun w _ _ => ((true, none), w) }

/-- A backend that is unreachable until its world is `true` and then answers every call with
success; a failed call leaves it reachable from then on. -/
def Backend.downThenUp : Backend Bool :=
  { NewNamingClient := fun w _ => (if w then none else some "connection refused", true),
    RegisterInstance := fun w _ _ => (if w then (true, none) else (false, some "connection refused"), true),
    DeregisterInstance := fun w _ _ => (if w then (true, none) else (false, some "connection refused"), true) }

/-- A fresh run: the given adapter, the given backend world, empty logs. -/
def Run.start {W : Type} (n : Nacos) (w : W) : Run W :=
  { nacos := n, world := w, calls := [], failed := [], ops := [] }

/-- The entry `(registry-namespace, name, endpoint)` a register call is about. -/
def Call.registered : Call → Option (String × String × String)
  | .RegisterInstance client p => some (client.param.ClientConfig.NamespaceId, p.ServiceName, p.Ip)
  | _ => none

/-- The entry `(registry-namespace, name, endpoint)` a deregister call is about. -/
def Call.deregistered : Call → Option (String × String × String)
  | .DeregisterInstance client p =>
    some (client.param.ClientConfig.NamespaceId, p.ServiceName, p.Ip)
  | _ => none

/-- The metadata a register call carries. -/
def Call.metadata : Call → Option (GoMap String String)
  | .RegisterInstance _ p => some p.Metadata
  | _ => none

/-- The registry-namespace an SDK call is made under: the `NamespaceId` of the client it goes
through, or of the client it creates. -/
def Call.namespaceId : Call → String
  | .NewNamingClient p => p.ClientConfig.NamespaceId
  | .RegisterInstance client _ => client.param.ClientConfig.NamespaceId
  | .DeregisterInstance client _ => client.param.ClientConfig.NamespaceId

/-- The registry-namespace a client-creating call is for. -/
def Call.created : Call → Option String
  | .NewNamingClient p => some p.ClientConfig.NamespaceId
  | _ => none

/-! ## service/status.go

The cluster client is a parameter, like the registry backend: a world state and the answer of
each call.  `Update` and `Status().Update` calls are appended to a write log when they are
issued, whatever they answer. -/

inductive ClientError where
  | notFound
  | conflict
  | other
deriving DecidableEq, Repr

/-- The part of `client.Client` the handler uses. -/
structure Client (W : Type) where
  Get : W → types.NamespacedName → Obj → Except ClientError Obj × W
  Update : W → Obj → Option ClientError × W
  StatusUpdate : W → Obj → Option ClientError × W

/-- One write call to the cluster. -/
inductive Write where
  | Update (obj : Obj)
  | StatusUpdate (obj : Obj)
deriving DecidableEq, Repr

/-- A write-back request (`type StatusUpdate struct`) with a non-nil mutator. -/
structure StatusUpdate where
  NamespacedName : types.NamespacedName
  Resource : Obj
  Mutator : Obj → Obj

/-- `isStatusEqual`; `reflect.DeepEqual` is equality of the embedded values, which does not tell
a nil slice from an empty one. -/
def isStatusEqual (objA objB : Obj) : Bool :=
  match objA with
  | .service a =>
    if a.Labels.isNone || decide (labelGet a.Labels "nacosbridge.io/status-changed" ≠ "true") then
      false
    else
      match objB with
      | .service b => decide (a.Status = b.Status)
      | _ => false
  | _ => decide (objA = objB)

/-- `isSpecEqual`; `reflect.DeepEqual` is equality of the embedded values, which does not tell
a nil slice from an empty one. -/
def isSpecEqual (objA objB : Obj) : Bool :=
  match objA with
  | .service a =>
    if a.Labels.isNone || decide (labelGet a.Labels "nacosbridge.io/spec-changed" ≠ "true") then
      false
    else
      match objB with
      | .service b => decide (a.Spec = b.Spec)
      | _ => false
  | _ => decide (objA = objB)

/-- The closure `fn` of `StatusUpdateHandler.apply`: one attempt. -/
def StatusUpdateHandler.fn {W : Type} (cl : Client W) (upd : StatusUpdate)
    (s : W × List Write) : Option ClientError × (W × List Write) :=
  match cl.Get s.1 upd.NamespacedName upd.Resource with
  | (.error err, w) => (some err, (w, s.2))
  | (.ok obj, w) =>
    let newObj := upd.Mutator obj
    if isSpecEqual obj newObj then (none, (w, s.2))
    else
      match cl.Update w newObj with
      | (some err, w) => (some err, (w, s.2 ++ [Write.Update newObj]))
      | (none, w) =>
        let writes := s.2 ++ [Write.Update newObj]
        if isStatusEqual obj newObj then (none, (w, writes))
        else
          match cl.StatusUpdate w newObj with
          | (some err, w) => (some err, (w, writes ++ [Write.StatusUpdate newObj]))
          | (none, w) => (none, (w, writes ++ [Write.StatusUpdate newObj]))

/-- `retry.RetryOnConflict(backoff, fn)` of client-go with `steps = backoff.Steps`: `fn` is run
until it returns nil or an error that is no conflict, at most `steps` times; the last conflict
is returned when the steps run out. -/
def retry.RetryOnConflict {σ : Type} (fn : σ → Option ClientError × σ) :
    Nat → Option ClientError → σ → Option ClientError × σ
  | 0, lastErr, s => (lastErr, s)
  | steps + 1, _, s =>
    match fn s with
    | (none, s) => (none, s)
    | (some .conflict, s) => retry.RetryOnConflict fn steps (some .conflict) s
    | (some err, s) => (some err, s)

/-- The `Steps` of `retry.DefaultBackoff`. -/
def retry.DefaultBackoff.Steps : Nat := 4

/-- `StatusUpdateHandler.apply`: the client world and the write log after the request. -/
def StatusUpdateHandler.apply {W : Type} (cl : Client W) (upd : StatusUpdate)
    (s : W × List Write) : W × List Write :=
  (retry.RetryOnConflict (StatusUpdateHandler.fn cl upd) retry.DefaultBackoff.Steps none s).2

/-- A cluster client that holds one object, returns it on every `Get` and accepts and stores
every write. -/
def Client.single : Client Obj :=
  { Get := fun w _ _ => (.ok w, w),
    Update := fun _ obj => (none, obj),
    StatusUpdate := fun _ obj => (none, obj) }

/-! ## service/server.go: the mutator `rebuild` attaches to every published Service -/

/-- The mutator closure of `Server.rebuild`: a Service without the label
`nacosbridge.io/external = "true"` is returned as it is; otherwise the node ports named by
`nacosbridge.io/nodeport-<port name>` labels are written into a copy, which is returned with
the spec change marker and the node-port type when it differs from the original. -/
def Server.mutator (svc : corev1.Service) : corev1.Service :=
  if svc.Labels.isNone || decide (labelGet svc.Labels REGISTRY_SERVICE_EXTERNAL ≠ "true") then svc
  else
    let ports := svc.Spec.Ports.map (fun specPort =>
      match labelGet? svc.Labels ("nacosbridge.io/nodeport-" ++ specPort.Name) with
      | none => specPort
      | some nodePort =>
        match strconv.Atoi nodePort with
        | none => specPort
        | some port => { specPort with NodePort := int32 port })
    let cp : corev1.Service := { svc with Spec := { svc.Spec with Ports := ports } }
    if cp = svc then svc
    else
      { cp with
        Labels := some (GoMap.put (cp.Labels.getD []) "nacosbridge.io/spec-changed" "true"),
        Spec := { cp.Spec with Type_ := corev1.ServiceTypeNodePort } }

/-- The mutator as a `StatusMutatorFunc`: it is only ever attached to a Service. -/
def Server.statusMutator (obj : Obj) : Obj :=
  match obj with
  | .service svc => .service (Server.mutator svc)
  | o => o

/-! ## Example inputs -/

/-- A Service resource `default/web` published with node-port exposure: `publish=true`,
type `external`, open-port `http`, two ports of which `http` has node port 31000. -/
def exNodePortService : corev1.Service :=
  { Namespace := "default", Name := "web",
    Labels := some [("nacosbridge.io/service", "true"),
                    ("nacosbridge.io/service-type", "external"),
                    ("nacosbridge.io/openport", "http")],
    Annotations := none,
    Spec := { Ports := [{ Name := "http", Port := 80, NodePort := 31000 },
                        { Name := "admin", Port := 9090, NodePort := 31001 }],
              Type_ := "NodePort", LoadBalancerIP := "", ExternalName := "" },
    Status := { LoadBalancerIngress := [] } }

/-- The cache after `default/web` has been inserted once. -/
def exCacheWithService : Cache := (Cache.Insert Cache.init (.service exNodePortService)).2

/-- The designated ConfigMap `default/bridge`, carrying the label the cache asks for. -/
def exConfigMap : corev1.ConfigMap :=
  { Namespace := "default", Name := "bridge",
    Labels := some [("nacosbridge.io/config", "true")],
    Data := some [("config.json", "\x7b\x7d")] }

/-- An updated version of `default/bridge` whose label is no longer `"true"`. -/
def exConfigMapUnlabelled : corev1.ConfigMap :=
  { exConfigMap with Labels := some [("nacosbridge.io/config", "false")] }

/-- The cache after `default/bridge` has been inserted. -/
def exCacheWithConfigMap : Cache := (Cache.Insert Cache.init (.configMap exConfigMap)).2

/-- A record with one endpoint in the registry-namespace `public`, with metadata of its own. -/
def exRecordOne : Service :=
  { Name := "web", Port := 80, IP := ["10.0.0.1"], NacosNs := "public",
    Metadata := [("team", "a")] }

/-- The same service with three endpoints, the first being the endpoint of `exRecordOne`. -/
def exRecordThree : Service :=
  { Name := "web", Port := 80, IP := ["10.0.0.1", "10.0.0.2", "10.0.0.3"], NacosNs := "public",
    Metadata := [("team", "a")] }

/-- A record without a registry-namespace. -/
def exRecordNoNamespace : Service :=
  { Name := "db", Port := 5432, IP := ["10.0.0.9"], NacosNs := "", Metadata := [] }

/-- The adapter after a first, successful `Build` of `exRecordOne` on a fresh adapter, with
empty logs. -/
def exAfterFirstBuild : Run Unit :=
  Run.start (Nacos.Build Backend.allOk (Run.start Nacos.init ()) [exRecordOne]).2.nacos ()

/-- The run after a first `Build` of `exRecordOne` that failed because the backend was down. -/
def exAfterFailedBuild : Run Bool :=
  (Nacos.Build Backend.downThenUp (Run.start Nacos.init false) [exRecordOne]).2

/-- The run after one client for the registry-namespace `public` has been asked for. -/
def exAfterClient : Run Unit :=
  (Nacos.generateNamespaceClient Backend.allOk (Run.start Nacos.init ()) "public").2

/-- The write-back request `rebuild` makes for `default/web`; the Service has no
`nacosbridge.io/external` label, so the mutator returns the fetched object itself. -/
def exNoopUpdate : StatusUpdate :=
  { NamespacedName := exNodePortService.key, Resource := .service exNodePortService,
    Mutator := Server.statusMutator }
/-! ## The naming rule in the words of the specification -/

/-- The base name of a record: the value of the base-name label when the service carries it,
otherwise the resource's own name. -/
def Spec.baseName (svc : corev1.Service) : String :=
  match labelGet? svc.Labels REGISTRY_SERVICE_NAME with
  | some v => v
  | none => svc.Name

/-- The record name for the service port named `portName` as the specification words it: the
value of the per-port name-override label when the service carries it, otherwise the base
name. -/
def Spec.recordName (svc : corev1.Service) (portName : String) : String :=
  match labelGet? svc.Labels (REGISTRY_PORTNAME ++ portName) with
  | some v => v
  | none => Spec.baseName svc

/-- The record name for the service port named `portName` with the override restricted to a
non-empty value: the value of the per-port name-override label when the service carries it
with a non-empty value, otherwise the base name. -/
def Spec.recordNameNonEmpty (svc : corev1.Service) (portName : String) : String :=
  match labelGet? svc.Labels (REGISTRY_PORTNAME ++ portName) with
  | some v => if v ≠ "" then v else Spec.baseName svc
  | none => Spec.baseName svc

/-- The registry-namespace of a record as the specification words it: the value of the
namespace-override label, or empty when that label is absent. -/
def Spec.registryNamespace (svc : corev1.Service) : String :=
  match labelGet? svc.Labels REGISTRY_SERVICE_NAMESPACE with
  | some v => v
  | none => ""

/-- The per-port domain labels of a service, in iteration order: the labels whose key starts
with the domain-port prefix. -/
def domainPortLabels (svc : corev1.Service) : List (String × String) :=
  (svc.Labels.getD []).filter (fun kv => strings.HasPrefix kv.1 REGISTRY_SERVICE_DOMIN_PORT)

/-! ## service/config.go -/

/-- `GenerateServiceConfig`. -/
def GenerateServiceConfig (svc : String) (config : GoMap String String) : GoMap String String :=
  let pfx := svc ++ "."
  config.foldl (fun newConfig kv =>
    if strings.HasPrefix kv.1 pfx then
      GoMap.put newConfig (strings.TrimPrefix kv.1 pfx) kv.2
    else newConfig) []

/-! ## service/server.go: the namespace allow-list of one adapter -/

/-- The `selectNamespace` set `rebuild` builds from the comma-separated allow-list `ns` of an
adapter: empty for an empty string. -/
def Server.selectNamespace (ns : String) : GoMap String Bool :=
  if ns ≠ "" then (strings.Split ns ',').foldl (fun m n => GoMap.put m n true) []
  else []

/-- A published Service `shop/cart` of type `cluster` with the open ports `http` and `grpc`, a
per-port name override for `grpc`, an empty per-port name override for `http`, and a
namespace override. -/
def exClusterService : corev1.Service :=
  { Namespace := "shop", Name := "cart",
    Labels := some [("nacosbridge.io/service", "cart-api"),
                    ("nacosbridge.io/service-type", "cluster"),
                    ("nacosbridge.io/namespace", "public"),
                    ("nacosbridge.io/openport", "http,grpc"),
                    ("nacosbridge.io/portname-grpc", "cart-grpc"),
                    ("nacosbridge.io/portname-http", "")],
    Annotations := some [("nacosbridge.io/matedata.team", "a"), ("owner", "ops")],
    Spec := { Ports := [{ Name := "http", Port := 80, NodePort := 0 },
                        { Name := "metrics", Port := 9100, NodePort := 0 },
                        { Name := "grpc", Port := 9000, NodePort := 0 }],
              Type_ := "ClusterIP", LoadBalancerIP := "", ExternalName := "" },
    Status := { LoadBalancerIngress := [] } }

/-- A published Service `shop/front` of type `gateway` with the external domain
`shop.example.com` and three per-port domain labels: `443`, a value that is no number, and
`4294967376`, which is `2 ^ 32 + 80`. -/
def exGatewayService : corev1.Service :=
  { Namespace := "shop", Name := "front",
    Labels := some [("nacosbridge.io/service", "front"),
                    ("nacosbridge.io/service-type", "gateway"),
                    ("nacosbridge.io/namespace", "public"),
                    ("nacosbridge.io/service-domin", "shop.example.com"),
                    ("nacosbridge.io/service-domain-1", "443"),
                    ("nacosbridge.io/service-domain-2", "https"),
                    ("nacosbridge.io/service-domain-3", "4294967376")],
    Annotations := none,
    Spec := { Ports := [], Type_ := "ClusterIP", LoadBalancerIP := "", ExternalName := "" },
    Status := { LoadBalancerIngress := [] } }

/-! ## service/server.go: the rebuild cycle

A registry adapter is its three operations over a state of its own; the server holds the
adapters in the order of `svcRegistry`, each with its state.  Every `Config` and `Build` call
made on an adapter is appended to a call log with the position of the adapter, every request
handed to `statusUpdater.Send` to a list of sent requests.  `Config.Load`, which is
`json.Unmarshal`, is a parameter. -/

/-- The parsed configuration payload (`type Config struct`). -/
structure Config where
  WatchNamespace : GoMap String String
  ServiceConfig : GoMap String String
deriving DecidableEq, Repr

/-- The capability contract `type Registry interface`, over the adapter state `σ`. -/
structure Registry (σ : Type) where
  Name : String
  Config : σ → GoMap String String → Option String × σ
  Build : σ → List Service → Option String × σ

/-- One call `rebuild` makes on the adapter at position `index` of `svcRegistry`. -/
inductive RegistryCall where
  | Config (index : Nat) (name : String) (config : GoMap String String)
  | Build (index : Nat) (name : String) (services : List Service)
deriving DecidableEq, Repr

/-- The position of the adapter a call was made on. -/
def RegistryCall.index : RegistryCall → Nat
  | .Config i _ _ => i
  | .Build i _ _ => i

/-- The server (`type Server struct`) with the logs of what it sent and called. -/
structure Server (σ : Type) where
  cache : Cache
  svcRegistry : List (Registry σ × σ)
  sent : List StatusUpdate
  calls : List RegistryCall

/-- The Nacos adapter as a `Registry`, against the backend `B`. -/
def Nacos.registry {W : Type} (B : Backend W) : Registry (Run W) :=
  { Name := "nacos",
    Config := fun s config => ((Nacos.Config s.nacos config).1,
      { s with nacos := (Nacos.Config s.nacos config).2 }),
    Build := fun s services => Nacos.Build B s services }

/-- The first loop of `rebuild`: the `config.json` of the first cached ConfigMap, in iteration
order, that has the label `nacosbridge.io/config = "true"` and the data key `config.json`;
`""` when there is none. -/
def Server.findConfig : List (types.NamespacedName × corev1.ConfigMap) → String
  | [] => ""
  | (_, c) :: rest =>
    if c.Labels.isSome && decide (labelGet c.Labels "nacosbridge.io/config" = "true") then
      match labelGet? c.Data "config.json" with
      | none => Server.findConfig rest
      | some content => content
    else Server.findConfig rest

/-- The write-back requests `rebuild` makes: one for every cached Service with non-nil labels
and the label `nacosbridge.io/service`. -/
def Server.statusUpdates (services : List (types.NamespacedName × corev1.Service)) :
    List StatusUpdate :=
  services.filterMap (fun kv =>
    if kv.2.Labels.isNone then none
    else if !(labelGet? kv.2.Labels "nacosbridge.io/service").isSome then none
    else some { NamespacedName := kv.1, Resource := .service kv.2,
                Mutator := Server.statusMutator })

/-- The internal IPs of the cached nodes, as `rebuild` collects them. -/
def Server.nodeIps (nodes : List (types.NamespacedName × corev1.Node)) : List String :=
  nodes.flatMap (fun kv => kv.2.Addresses.filterMap (fun address =>
    if address.Type_ = corev1.NodeInternalIP then some address.Address else none))

/-- The loop `for _, sr := range s.svcRegistry` of `rebuild`, from position `i` on: a failed
`Config` goes on with the next adapter (`continue`), a failed `Build` returns its error. -/
def Server.rebuildRegistries {σ : Type} (cache : Cache) (registryConfig : Config) :
    Nat → List (Registry σ × σ) → List RegistryCall →
      Option String × List (Registry σ × σ) × List RegistryCall
  | _, [], calls => (none, [], calls)
  | i, (sr, st) :: rest, calls =>
    let ns := (GoMap.get? registryConfig.WatchNamespace sr.Name).getD ""
    let selectNamespace := Server.selectNamespace ns
    let config := GenerateServiceConfig sr.Name registryConfig.ServiceConfig
    let rc := sr.Config st config
    let calls := calls ++ [RegistryCall.Config i sr.Name config]
    match rc.1 with
    | some _ =>
      let r := Server.rebuildRegistries cache registryConfig (i + 1) rest calls
      (r.1, (sr, rc.2) :: r.2.1, r.2.2)
    | none =>
      let nodeIps := Server.nodeIps cache.nodes
      let serviceInfos := cache.services.flatMap (fun kv =>
        GenerateServiceInfos kv.2 nodeIps selectNamespace)
      let rb := sr.Build rc.2 serviceInfos
      let calls := calls ++ [RegistryCall.Build i sr.Name serviceInfos]
      match rb.1 with
      | some err => (some err, (sr, rb.2) :: rest, calls)
      | none =>
        let r := Server.rebuildRegistries cache registryConfig (i + 1) rest calls
        (r.1, (sr, rb.2) :: r.2.1, r.2.2)

/-- `Server.rebuild`, with `load` for `Config.Load`: the returned error and the server after
the cycle. -/
def Server.rebuild {σ : Type} (load : String → Except String Config) (s : Server σ) :
    Option String × Server σ :=
  let config := Server.findConfig s.cache.configmaps
  if config = "" then (some "config not found", s)
  else
    match load config with
    | .error err => (some err, s)
    | .ok registryConfig =>
      let sus := Server.statusUpdates s.cache.services
      let s := { s with sent := s.sent ++ sus }
      let r := Server.rebuildRegistries s.cache registryConfig 0 s.svcRegistry s.calls
      (r.1, { s with svcRegistry := r.2.1, calls := r.2.2 })

/-! ## service/server.go: the scheduler loop of `Start`

Time is in nanoseconds.  The state is the cache, the deadline of the timer that is running
(`none` when no timer is pending: before the first one is made and after one has fired) and
the number of rebuild cycles run so far.  The loop takes one of two steps: it receives an
operation at some time, or it receives from the timer at a time not before the deadline. -/

/-- The constant `DELAY`, ten seconds. -/
def DELAY : Nat := 10 * 1000000000

/-- The scheduler state. -/
structure Loop where
  cache : Cache
  pending : Option Nat
  rebuilds : Nat
deriving DecidableEq, Repr

/-- What the `select` of `Start` receives. -/
inductive LoopEvent where
  | update (now : Nat) (op : Op)
  | timer (now : Nat)
deriving DecidableEq, Repr

/-- One turn of the loop of `Server.Start`: an operation is applied to the cache and, when
`onUpdate` returns true, the timer is replaced by one due at `now + DELAY`; the timer, which
can be received from only once its deadline has come, runs one rebuild cycle and leaves
nothing pending. -/
def Server.Start.step (s : Loop) : LoopEvent → Loop
  | .update now op =>
    if (Server.onUpdate s.cache op).1 then
      { cache := (Server.onUpdate s.cache op).2, pending := some (now + DELAY),
        rebuilds := s.rebuilds }
    else { s with cache := (Server.onUpdate s.cache op).2 }
  | .timer now =>
    match s.pending with
    | some deadline =>
      if deadline ≤ now then { s with pending := none, rebuilds := s.rebuilds + 1 } else s
    | none => s

/-- The loop run over operations arriving at the given times, in order: a timer that is due
when an operation arrives has fired before it. -/
def Server.Start.run (s : Loop) : List (Nat × Op) → Loop
  | [] => s
  | (now, op) :: rest =>
    Server.Start.run
      (Server.Start.step (Server.Start.step s (.timer now)) (.update now op)) rest

/-- A burst after an operation at time `last`: every operation arrives not before and less
than `DELAY` after the one before it, and its application to the cache returns true. -/
def Server.Start.burst (c : Cache) (last : Nat) : List (Nat × Op) → Bool
  | [] => true
  | (now, op) :: rest =>
    decide (last ≤ now) && decide (now < last + DELAY) && (Server.onUpdate c op).1 &&
      Server.Start.burst (Server.onUpdate c op).2 now rest

/-- The arrival time of the last operation of a list, `first` for the empty list. -/
def Server.Start.lastTime (first : Nat) : List (Nat × Op) → Nat
  | [] => first
  | (now, _) :: rest => Server.Start.lastTime now rest

/-- A configuration payload: no namespace allow-list, the address of the Nacos server as the
one configuration key of the adapter `nacos`. -/
def exPayload : String :=
  "\x7b\"service_config\": \x7b\"nacos.address\": \"127.0.0.1\"\x7d\x7d"

/-- `Config.Load` on the payloads of the examples: `exPayload` and the empty object are
parsed, anything else is an error. -/
def exLoad : String → Except String Config :=
  fun content =>
    if content = exPayload then
      .ok { WatchNamespace := [], ServiceConfig := [("nacos.address", "127.0.0.1")] }
    else if content = "\x7b\x7d" then .ok { WatchNamespace := [], ServiceConfig := [] }
    else .error "invalid character"

/-- The designated ConfigMap `default/bridge` with `exPayload` as its `config.json`. -/
def exConfigMapNacos : corev1.ConfigMap :=
  { exConfigMap with Data := some [("config.json", exPayload)] }

/-- The cache holding that ConfigMap and the Service `shop/cart`. -/
def exCacheConfigured : Cache :=
  (Cache.Insert (Cache.Insert Cache.init (.configMap exConfigMapNacos)).2
    (.service exClusterService)).2

/-- A server with two Nacos adapters: the backend of the first is down, the backend of the
second is up. -/
def exServerTwoAdapters : Server (Run Bool) :=
  { cache := exCacheConfigured,
    svcRegistry := [(Nacos.registry Backend.downThenUp, Run.start Nacos.init false),
                    (Nacos.registry Backend.downThenUp, Run.start Nacos.init true)],
    sent := [], calls := [] }

/-- An adapter whose `Config` always fails. -/
def exUnconfigurable : Registry (Run Bool) :=
  { Name := "other", Config := fun s _ => (some "unreachable", s),
    Build := fun s _ => (none, s) }

/-- A server whose first adapter cannot be configured and whose second is a Nacos adapter with
a backend that is up. -/
def exServerConfigFails : Server (Run Bool) :=
  { cache := exCacheConfigured,
    svcRegistry := [(exUnconfigurable, Run.start Nacos.init true),
                    (Nacos.registry Backend.downThenUp, Run.start Nacos.init true)],
    sent := [], calls := [] }

/-- A ConfigMap `default/bridge` that carries the label but no data key `config.json`. -/
def exConfigMapNoPayload : corev1.ConfigMap :=
  { exConfigMap with Data := some [("other.json", "\x7b\x7d")] }

/-- A server whose cache holds the Service `shop/cart` and, as its only ConfigMap, one without
`config.json`; its adapter is a Nacos adapter that has applied `exRecordOne` before. -/
def exServerNoConfig : Server (Run Unit) :=
  { cache := (Cache.Insert (Cache.Insert Cache.init (.configMap exConfigMapNoPayload)).2
                (.service exClusterService)).2,
    svcRegistry := [(Nacos.registry Backend.allOk, exAfterFirstBuild)],
    sent := [], calls := [] }

/-- Three additions of Services, 2 s, 5 s and 9 s after time zero. -/
def exBurst : List (Nat × Op) :=
  [(2000000000, .opAdd (.service exNodePortService)),
   (5000000000, .opAdd (.service exClusterService)),
   (9000000000, .opAdd (.service exGatewayService))]

/-- The scheduler before anything has arrived. -/
def exLoopStart : Loop := { cache := Cache.init, pending := none, rebuilds := 0 }

/-- A Service `default/unknown` that no cache of the examples holds. -/
def exRecordlessService : corev1.Service :=
  { exNodePortService with Name := "unknown" }

/-- The inner loop of the first loop of `Build`: the addresses of one record are entered into
the map. -/
def Nacos.mergeRecord (m : GoMap String Service) (svc : Service) : GoMap String Service :=
  svc.IP.foldl (fun m ip =>
    let svcName := Nacos.svcName svc.NacosNs svc.Name ip
    if GoMap.contains m svcName then m else GoMap.put m svcName svc) m

/-- An entry of the new-state map is stored under a key of its own record, and the
registry-namespace of the record does not begin with a dot. -/
def Nacos.wellKeyed (kv : String × Service) : Prop :=
  (∃ ip, kv.1 = Nacos.svcName kv.2.NacosNs kv.2.Name ip) ∧
  strings.HasPrefix kv.2.NacosNs "." = false

/-- A record whose registry-namespace begins with a dot and whose only key is `.a.b.c`. -/
def exRecordDotNamespace : Service :=
  { Name := "b", Port := 8080, IP := ["c"], NacosNs := ".a", Metadata := [] }

/-- A record without a registry-namespace whose only key is `.a.b.c` as well. -/
def exRecordNoNamespaceSameKey : Service :=
  { Name := "a", Port := 9090, IP := ["b.c"], NacosNs := "", Metadata := [] }

/-- The entry a register call is about, with the port it carries. -/
def Call.registeredPort : Call → Option (String × String × String × Nat)
  | .RegisterInstance client p =>
    some (client.param.ClientConfig.NamespaceId, p.ServiceName, p.Ip, p.Port)
  | _ => none

/-- The first of two records of `public/web` with the endpoint `10.0.0.1`: port 8080. -/
def exRecordPortA : Service :=
  { Name := "web", Port := 8080, IP := ["10.0.0.1"], NacosNs := "public", Metadata := [] }

/-- The second of two records of `public/web` with the endpoint `10.0.0.1`: port 8443. -/
def exRecordPortB : Service :=
  { Name := "web", Port := 8443, IP := ["10.0.0.1"], NacosNs := "public", Metadata := [] }

/-- A third record of `public/web` with the endpoints `10.0.0.1` and `10.0.0.2`: port 9000. -/
def exRecordWider : Service :=
  { Name := "web", Port := 9000, IP := ["10.0.0.1", "10.0.0.2"], NacosNs := "public",
    Metadata := [] }

/-! ## Lemmas on Go maps -/

namespace GoMap

variable {K V : Type} [DecidableEq K]

theorem get?_put_self (m : GoMap K V) (k : K) (v : V) : get? (put m k v) k = some v := by
  induction m with
  | nil => simp [put, get?]
  | cons p rest ih =>
    obtain ⟨k', v'⟩ := p
    by_cases h : k' = k
    · simp [put, get?, h]
    · simp [put, get?, h, ih]

theorem get?_put_other (m : GoMap K V) (k k2 : K) (v : V) (h : k ≠ k2) :
    get? (put m k v) k2 = get? m k2 := by
  induction m with
  | nil => simp [put, get?, h]
  | cons p rest ih =>
    obtain ⟨k', v'⟩ := p
    by_cases h1 : k' = k
    · subst h1
      simp [put, get?, h]
    · by_cases h2 : k' = k2
      · subst h2
        simp [put, get?, h1]
      · simp [put, get?, h1, h2, ih]

theorem get?_del_self (m : GoMap K V) (k : K) : get? (del m k) k = none := by
  induction m with
  | nil => simp [del, get?]
  | cons p rest ih =>
    obtain ⟨k', v'⟩ := p
    by_cases h : k' = k
    · simpa [del, List.filter, h] using ih
    · simpa [del, List.filter, h, get?] using ih

theorem del_eq_self_of_get?_none (m : GoMap K V) (k : K) (h : get? m k = none) :
    del m k = m := by
  induction m with
  | nil => simp [del]
  | cons p rest ih =>
    obtain ⟨k', v'⟩ := p
    by_cases h1 : k' = k
    · simp [get?, h1] at h
    · simp only [get?, h1, if_false] at h
      have := ih h
      simp only [del] at this ⊢
      rw [List.filter_cons_of_pos (by simpa using h1), this]

theorem del_ne_self_of_get?_some (m : GoMap K V) (k : K) (h : (get? m k).isSome = true) :
    del m k ≠ m := by
  intro heq
  have := get?_del_self m k
  rw [heq] at this
  simp [this] at h

end GoMap

/-! ## Lemmas on the cache -/

theorem Cache.holds_delete (c : Cache) (obj : Obj) :
    Cache.holds (Cache.Delete c obj).2 obj = false := by
  cases obj with
  | configMap o =>
    simp only [Cache.Delete, Cache.holds]
    split
    · simp [GoMap.contains, GoMap.get?_del_self]
    · simp_all
  | service o =>
    simp only [Cache.Delete, Cache.holds]
    split
    · simp [GoMap.contains, GoMap.get?_del_self]
    · simp_all
  | node o =>
    simp only [Cache.Delete, Cache.holds]
    split
    · simp [GoMap.contains, GoMap.get?_del_self]
    · simp_all
  | other p => simp [Cache.Delete, Cache.holds]

theorem Cache.insert_of_not_accepts (c : Cache) (obj : Obj) (h : Cache.accepts obj = false) :
    Cache.Insert c obj = (false, c) := by
  cases obj with
  | configMap o =>
    simp only [Cache.accepts] at h
    simp [Cache.Insert, h]
  | service o => simp [Cache.accepts] at h
  | node o => simp [Cache.accepts] at h
  | other p => simp [Cache.Insert]

/-! ## C1: the flags of `Cache.Insert` and `Cache.Delete` -/

/-- C1, counterexample: with the Service `default/web` already stored, inserting the very same
Service again returns true although the cache afterwards equals the cache before. -/
theorem Cache.insert_unchanged_returns_true :
    (Cache.Insert exCacheWithService (.service exNodePortService)).1 = true ∧
    (Cache.Insert exCacheWithService (.service exNodePortService)).2 = exCacheWithService := by
  decide

/-- C1, amended: `Cache.Insert` returns true exactly when the resource passes its kind's
admission predicate, whether or not the stored contents change, and a false return leaves the
cache as it was; `Cache.Delete` returns true exactly when the identity was present, which is
exactly when the cache contents after the call differ from those before, and afterwards the
identity is absent. -/
theorem Cache.insert_delete_flags (c : Cache) (obj : Obj) :
    (Cache.Insert c obj).1 = Cache.accepts obj ∧
    ((Cache.Insert c obj).1 = false → (Cache.Insert c obj).2 = c) ∧
    (Cache.accepts obj = true → Cache.holds (Cache.Insert c obj).2 obj = true) ∧
    (Cache.Delete c obj).1 = Cache.holds c obj ∧
    ((Cache.Delete c obj).1 = true ↔ (Cache.Delete c obj).2 ≠ c) ∧
    Cache.holds (Cache.Delete c obj).2 obj = false := by
  cases obj with
  | configMap o =>
    refine ⟨?_, ?_, ?_, ?_, ?_, ?_⟩
    · simp only [Cache.Insert, Cache.accepts]; split <;> simp_all
    · simp only [Cache.Insert]; split <;> simp
    · intro h
      simp only [Cache.accepts] at h
      simp [Cache.Insert, h, Cache.holds, GoMap.contains, GoMap.get?_put_self]
    · simp only [Cache.Delete, Cache.holds]; split <;> simp_all
    · simp only [Cache.Delete]
      split
      · rename_i h
        simp only [true_iff]
        intro heq
        have h2 := congrArg Cache.configmaps heq
        exact GoMap.del_ne_self_of_get?_some _ _ h h2
      · simp
    · exact Cache.holds_delete c _
  | service o =>
    refine ⟨?_, ?_, ?_, ?_, ?_, ?_⟩
    · simp [Cache.Insert, Cache.accepts]
    · simp [Cache.Insert]
    · intro _
      simp [Cache.Insert, Cache.holds, GoMap.contains, GoMap.get?_put_self]
    · simp only [Cache.Delete, Cache.holds]; split <;> simp_all
    · simp only [Cache.Delete]
      split
      · rename_i h
        simp only [true_iff]
        intro heq
        have h2 := congrArg Cache.services heq
        exact GoMap.del_ne_self_of_get?_some _ _ h h2
      · simp
    · exact Cache.holds_delete c _
  | node o =>
    refine ⟨?_, ?_, ?_, ?_, ?_, ?_⟩
    · simp [Cache.Insert, Cache.accepts]
    · simp [Cache.Insert]
    · intro _
      simp [Cache.Insert, Cache.holds, GoMap.contains, GoMap.get?_put_self]
    · simp only [Cache.Delete, Cache.holds]; split <;> simp_all
    · simp only [Cache.Delete]
      split
      · rename_i h
        simp only [true_iff]
        intro heq
        have h2 := congrArg Cache.nodes heq
        exact GoMap.del_ne_self_of_get?_some _ _ h h2
      · simp
    · exact Cache.holds_delete c _
  | other p =>
    simp [Cache.Insert, Cache.Delete, Cache.accepts, Cache.holds]

/-! ## C2: the backend calls of one `Build` -/

/-- C2, the code at the failing input: after a successful `Build` of a record with the single
endpoint `10.0.0.1`, a `Build` of the same service with the endpoints `10.0.0.1`, `10.0.0.2`,
`10.0.0.3` succeeds on a backend that accepts every call, deregisters nothing, and issues six
register calls: each of the two new endpoints is registered twice, and `10.0.0.1`, present in
the old and the new state, is registered twice as well. -/
theorem Nacos.Build_registers_whole_record_per_new_key :
    (Nacos.Build Backend.allOk (Run.start Nacos.init ()) [exRecordOne]).1 = none ∧
    exAfterFirstBuild.nacos.oldService.map Prod.fst = ["public.web.10.0.0.1"] ∧
    (Nacos.Build Backend.allOk exAfterFirstBuild [exRecordThree]).1 = none ∧
    (Nacos.Build Backend.allOk exAfterFirstBuild [exRecordThree]).2.calls.filterMap
        Call.registered =
      [("public", "web", "10.0.0.1"), ("public", "web", "10.0.0.2"),
       ("public", "web", "10.0.0.3"), ("public", "web", "10.0.0.1"),
       ("public", "web", "10.0.0.2"), ("public", "web", "10.0.0.3")] ∧
    (Nacos.Build Backend.allOk exAfterFirstBuild [exRecordThree]).2.calls.filterMap
        Call.deregistered = [] := by
  decide

/-! ## C3: `Build` adopts the new state on success only -/

theorem Nacos.generateNamespaceClient_frame {W : Type} (B : Backend W) (s : Run W) (ns : String) :
    (Nacos.generateNamespaceClient B s ns).2.nacos = s.nacos ∧
    (Nacos.generateNamespaceClient B s ns).2.ops = s.ops ∧
    (∀ c, (Nacos.generateNamespaceClient B s ns).1 = .ok c →
      (Nacos.generateNamespaceClient B s ns).2.failed = s.failed) := by
  unfold Nacos.generateNamespaceClient
  cases GoMap.get? s.nacos.namespaceClients ns with
  | some client => simp
  | none =>
    simp only
    split
    · simp
    · rename_i h
      simp [h]

theorem Nacos.registerInstances_frame {W : Type} (B : Backend W) (client : NamingClient)
    (service : Service) (ips : List String) (s : Run W) :
    (Nacos.registerInstances B client service ips s).2.nacos = s.nacos ∧
    (Nacos.registerInstances B client service ips s).2.ops = s.ops ∧
    ((Nacos.registerInstances B client service ips s).1 = none →
      (Nacos.registerInstances B client service ips s).2.failed = s.failed) := by
  induction ips generalizing s with
  | nil => simp [Nacos.registerInstances]
  | cons ip ips ih =>
    simp only [Nacos.registerInstances]
    split
    · simp
    · rename_i herr
      split
      · simp
      · rename_i hok
        rw [(ih _).1, (ih _).2.1]
        refine ⟨rfl, rfl, ?_⟩
        intro hn
        rw [(ih _).2.2 hn]
        simp [herr] at hok ⊢
        simp [hok]

theorem Nacos.deregisterInstances_frame {W : Type} (B : Backend W) (client : NamingClient)
    (service : Service) (ips : List String) (s : Run W) :
    (Nacos.deregisterInstances B client service ips s).2.nacos = s.nacos ∧
    (Nacos.deregisterInstances B client service ips s).2.ops = s.ops ∧
    ((Nacos.deregisterInstances B client service ips s).1 = none →
      (Nacos.deregisterInstances B client service ips s).2.failed = s.failed) := by
  induction ips generalizing s with
  | nil => simp [Nacos.deregisterInstances]
  | cons ip ips ih =>
    simp only [Nacos.deregisterInstances]
    split
    · simp
    · rename_i herr
      split
      · simp
      · rename_i hok
        rw [(ih _).1, (ih _).2.1]
        refine ⟨rfl, rfl, ?_⟩
        intro hn
        rw [(ih _).2.2 hn]
        simp [herr] at hok ⊢
        simp [hok]

theorem Nacos.registerService_frame {W : Type} (B : Backend W) (s : Run W) (service : Service) :
    (Nacos.registerService B s service).2.nacos = s.nacos ∧
    (Nacos.registerService B s service).2.ops = s.ops ∧
    ((Nacos.registerService B s service).1 = none →
      (Nacos.registerService B s service).2.failed = s.failed) := by
  unfold Nacos.registerService
  simp only
  split
  · simp
  · have hg := Nacos.generateNamespaceClient_frame B s service.NacosNs
    split
    · rename_i e s2 heq
      rw [heq] at hg
      exact ⟨hg.1, hg.2.1, by simp⟩
    · rename_i c s2 heq
      rw [heq] at hg
      have hr := Nacos.registerInstances_frame B c service service.IP s2
      exact ⟨hr.1.trans hg.1, hr.2.1.trans hg.2.1, fun hn => (hr.2.2 hn).trans (hg.2.2 c rfl)⟩

theorem Nacos.deregisterService_frame {W : Type} (B : Backend W) (s : Run W) (service : Service) :
    (Nacos.deregisterService B s service).2.nacos = s.nacos ∧
    (Nacos.deregisterService B s service).2.ops = s.ops ∧
    ((Nacos.deregisterService B s service).1 = none →
      (Nacos.deregisterService B s service).2.failed = s.failed) := by
  unfold Nacos.deregisterService
  simp only
  split
  · simp
  · have hg := Nacos.generateNamespaceClient_frame B s service.NacosNs
    split
    · rename_i e s2 heq
      rw [heq] at hg
      exact ⟨hg.1, hg.2.1, by simp⟩
    · rename_i c s2 heq
      rw [heq] at hg
      have hr := Nacos.deregisterInstances_frame B c service service.IP s2
      exact ⟨hr.1.trans hg.1, hr.2.1.trans hg.2.1, fun hn => (hr.2.2 hn).trans (hg.2.2 c rfl)⟩

theorem Nacos.registerAll_spec {W : Type} (B : Backend W) (l : List Service) (s : Run W) :
    ∃ ran : List OpRecord,
      (Nacos.registerAll B l s).2.ops = s.ops ++ ran ∧
      (Nacos.registerAll B l s).2.nacos = s.nacos ∧
      ((Nacos.registerAll B l s).1 = none ↔ ∀ o ∈ ran, o.err = none) ∧
      ((Nacos.registerAll B l s).1 = none → (Nacos.registerAll B l s).2.failed = s.failed) := by
  induction l generalizing s with
  | nil => exact ⟨[], by simp [Nacos.registerAll]⟩
  | cons svc rest ih =>
    have hf := Nacos.registerService_frame B s svc
    simp only [Nacos.registerAll]
    cases hr : (Nacos.registerService B s svc).1 with
    | some err =>
      dsimp only
      refine ⟨[{ register := true, service := svc, err := some err }], ?_, ?_, ?_, ?_⟩
      · rw [hf.2.1]
      · exact hf.1
      · simp
      · intro h; simp at h
    | none =>
      obtain ⟨ran, h1, h2, h3, h4⟩ := ih
        { (Nacos.registerService B s svc).2 with
          ops := (Nacos.registerService B s svc).2.ops ++
            [{ register := true, service := svc, err := none }] }
      dsimp only at h1 h2 h3 h4 ⊢
      refine ⟨{ register := true, service := svc, err := none } :: ran, ?_, ?_, ?_, ?_⟩
      · rw [h1, hf.2.1]; simp
      · rw [h2]; exact hf.1
      · rw [h3]; simp
      · intro hn
        rw [h4 hn]
        exact hf.2.2 hr

theorem Nacos.deregisterAll_spec {W : Type} (B : Backend W) (l : List Service) (s : Run W) :
    ∃ ran : List OpRecord,
      (Nacos.deregisterAll B l s).2.ops = s.ops ++ ran ∧
      (Nacos.deregisterAll B l s).2.nacos = s.nacos ∧
      ((Nacos.deregisterAll B l s).1 = none ↔ ∀ o ∈ ran, o.err = none) ∧
      ((Nacos.deregisterAll B l s).1 = none → (Nacos.deregisterAll B l s).2.failed = s.failed) := by
  induction l generalizing s with
  | nil => exact ⟨[], by simp [Nacos.deregisterAll]⟩
  | cons svc rest ih =>
    have hf := Nacos.deregisterService_frame B s svc
    simp only [Nacos.deregisterAll]
    cases hr : (Nacos.deregisterService B s svc).1 with
    | some err =>
      dsimp only
      refine ⟨[{ register := false, service := svc, err := some err }], ?_, ?_, ?_, ?_⟩
      · rw [hf.2.1]
      · exact hf.1
      · simp
      · intro h; simp at h
    | none =>
      obtain ⟨ran, h1, h2, h3, h4⟩ := ih
        { (Nacos.deregisterService B s svc).2 with
          ops := (Nacos.deregisterService B s svc).2.ops ++
            [{ register := false, service := svc, err := none }] }
      dsimp only at h1 h2 h3 h4 ⊢
      refine ⟨{ register := false, service := svc, err := none } :: ran, ?_, ?_, ?_, ?_⟩
      · rw [h1, hf.2.1]; simp
      · rw [h2]; exact hf.1
      · rw [h3]; simp
      · intro hn
        rw [h4 hn]
        exact hf.2.2 hr

/-- What `Build` does, in terms of the operations it ran: they extend the operation log; the
call returns nil exactly when every one of them returned nil; on nil the old state is the new
state the call computed and the new state is reset, on an error the old state is untouched. -/
theorem Nacos.Build_spec {W : Type} (B : Backend W) (s : Run W) (services : List Service) :
    ∃ ran : List OpRecord,
      (Nacos.Build B s services).2.ops = s.ops ++ ran ∧
      ((Nacos.Build B s services).1 = none ↔ ∀ o ∈ ran, o.err = none) ∧
      ((Nacos.Build B s services).1 = none →
        (Nacos.Build B s services).2.nacos.oldService =
          Nacos.mergeNew s.nacos.newService services ∧
        (Nacos.Build B s services).2.nacos.newService = []) ∧
      ((Nacos.Build B s services).1 ≠ none →
        (Nacos.Build B s services).2.nacos.oldService = s.nacos.oldService ∧
        (Nacos.Build B s services).2.nacos.newService =
          Nacos.mergeNew s.nacos.newService services) ∧
      ((Nacos.Build B s services).1 = none →
        (Nacos.Build B s services).2.failed = s.failed) := by
  obtain ⟨s1, hs1⟩ : ∃ s1 : Run W, s1 = { s with nacos := { s.nacos with
    newService := Nacos.mergeNew s.nacos.newService services } } := ⟨_, rfl⟩
  obtain ⟨addSvc, hadd⟩ : ∃ a, a = Nacos.onlyIn s1.nacos.newService s1.nacos.oldService :=
    ⟨_, rfl⟩
  obtain ⟨delSvc, hdel⟩ : ∃ a, a = Nacos.onlyIn s1.nacos.oldService s1.nacos.newService :=
    ⟨_, rfl⟩
  have key : Nacos.Build B s services =
      (match Nacos.registerAll B addSvc s1 with
       | (some err, s) => (some err, s)
       | (none, s) =>
         match Nacos.deregisterAll B delSvc s with
         | (some err, s) => (some err, s)
         | (none, s) =>
           (none, { s with nacos := { s.nacos with
             oldService := s.nacos.newService, newService := [] } })) := by
    subst hdel hadd hs1
    rfl
  have hs1n : s1.nacos.newService = Nacos.mergeNew s.nacos.newService services := by rw [hs1]
  have hs1o : s1.nacos.oldService = s.nacos.oldService := by rw [hs1]
  have hs1p : s1.ops = s.ops := by rw [hs1]
  have hs1f : s1.failed = s.failed := by rw [hs1]
  rw [key]
  obtain ⟨ran1, a1, a2, a3, a4⟩ := Nacos.registerAll_spec B addSvc s1
  cases hr : Nacos.registerAll B addSvc s1 with
  | mk e1 s2 =>
    rw [hr] at a1 a2 a3 a4
    dsimp only at a1 a2 a3 a4
    cases e1 with
    | some err =>
      dsimp only
      refine ⟨ran1, ?_, ?_, ?_, ?_, ?_⟩
      · rw [a1, hs1p]
      · exact a3
      · intro h; simp at h
      · intro _
        rw [a2]
        exact ⟨hs1o, hs1n⟩
      · intro h; simp at h
    | none =>
      dsimp only
      obtain ⟨ran2, b1, b2, b3, b4⟩ := Nacos.deregisterAll_spec B delSvc s2
      have hall1 : ∀ o ∈ ran1, o.err = none := a3.mp rfl
      cases hd : Nacos.deregisterAll B delSvc s2 with
      | mk e2 s3 =>
        rw [hd] at b1 b2 b3 b4
        dsimp only at b1 b2 b3 b4
        cases e2 with
        | some err =>
          dsimp only
          refine ⟨ran1 ++ ran2, ?_, ?_, ?_, ?_, ?_⟩
          · rw [b1, a1, hs1p, List.append_assoc]
          · have hb : ¬ ∀ o ∈ ran2, o.err = none := fun h => by
              have := b3.mpr h
              simp at this
            constructor
            · intro h; simp at h
            · intro hall
              exact absurd (fun o ho => hall o (List.mem_append_right _ ho)) hb
          · intro h; simp at h
          · intro _
            rw [b2, a2]
            exact ⟨hs1o, hs1n⟩
          · intro h; simp at h
        | none =>
          have hall2 : ∀ o ∈ ran2, o.err = none := b3.mp rfl
          dsimp only
          refine ⟨ran1 ++ ran2, ?_, ?_, ?_, ?_, ?_⟩
          · rw [b1, a1, hs1p, List.append_assoc]
          · constructor
            · intro _ o ho
              rcases List.mem_append.mp ho with h | h
              · exact hall1 o h
              · exact hall2 o h
            · intro _; rfl
          · intro _
            rw [b2, a2]
            exact ⟨hs1n, rfl⟩
          · intro h; exact absurd rfl h
          · intro _
            rw [b4 rfl, a4 rfl, hs1f]

/-- C3: on every adapter state, backend and records list, with the operations
(`registerService` / `deregisterService`) this `Build` ran read off the operation log: if any
of them failed, or any backend call of this `Build` was answered with a failure, `Build`
returns an error and the old state is exactly what it was before the call; if every operation
succeeded, `Build` returns nil, the old state is the new desired state the call computed, and
the new-state map is reset. -/
theorem Nacos.Build_all_or_nothing {W : Type} (B : Backend W) (s : Run W)
    (services : List Service) :
    ((∃ o ∈ (Nacos.Build B s services).2.ops.drop s.ops.length, o.err ≠ none) →
      (Nacos.Build B s services).1 ≠ none ∧
      (Nacos.Build B s services).2.nacos.oldService = s.nacos.oldService) ∧
    ((Nacos.Build B s services).2.failed ≠ s.failed →
      (Nacos.Build B s services).1 ≠ none ∧
      (Nacos.Build B s services).2.nacos.oldService = s.nacos.oldService) ∧
    ((∀ o ∈ (Nacos.Build B s services).2.ops.drop s.ops.length, o.err = none) →
      (Nacos.Build B s services).1 = none ∧
      (Nacos.Build B s services).2.nacos.oldService =
        Nacos.mergeNew s.nacos.newService services ∧
      (Nacos.Build B s services).2.nacos.newService = []) := by
  obtain ⟨ran, h1, h2, h3, h4, h5⟩ := Nacos.Build_spec B s services
  have hdrop : (Nacos.Build B s services).2.ops.drop s.ops.length = ran := by
    rw [h1]; simp
  rw [hdrop]
  refine ⟨?_, ?_, ?_⟩
  · rintro ⟨o, ho, hne⟩
    have hn : (Nacos.Build B s services).1 ≠ none := fun h => hne (h2.mp h o ho)
    exact ⟨hn, (h4 hn).1⟩
  · intro hf
    have hn : (Nacos.Build B s services).1 ≠ none := fun h => hf (h5 h)
    exact ⟨hn, (h4 hn).1⟩
  · intro hall
    have hn := h2.mpr hall
    exact ⟨hn, (h3 hn).1, (h3 hn).2⟩

/-- C3, witness: the three branches at concrete inputs.  On a fresh adapter, building a record
without registry-namespace runs one operation, which fails: an error, old state still empty.
Building a one-endpoint record while the backend is down has a backend call fail: an error, old
state still empty.  Building that record against a backend that accepts every call runs one
operation, which succeeds: nil, and the old state holds exactly that record under its key. -/
theorem Nacos.Build_all_or_nothing_witness :
    ((Nacos.Build Backend.downThenUp (Run.start Nacos.init false) [exRecordOne]).2.failed.length
        = 1 ∧
      (Nacos.Build Backend.downThenUp (Run.start Nacos.init false) [exRecordOne]).1 ≠ none ∧
      (Nacos.Build Backend.downThenUp (Run.start Nacos.init false) [exRecordOne]).2.nacos.oldService
        = []) ∧
    ((Nacos.Build Backend.allOk (Run.start Nacos.init ()) [exRecordNoNamespace]).2.ops.map
        (fun o => o.err.isSome) = [true] ∧
      (Nacos.Build Backend.allOk (Run.start Nacos.init ()) [exRecordNoNamespace]).1 ≠ none ∧
      (Nacos.Build Backend.allOk (Run.start Nacos.init ()) [exRecordNoNamespace]).2.nacos.oldService
        = []) ∧
    ((Nacos.Build Backend.allOk (Run.start Nacos.init ()) [exRecordOne]).2.ops.map
        (fun o => o.err.isSome) = [false] ∧
      (Nacos.Build Backend.allOk (Run.start Nacos.init ()) [exRecordOne]).1 = none ∧
      (Nacos.Build Backend.allOk (Run.start Nacos.init ()) [exRecordOne]).2.nacos.oldService
        = [("public.web.10.0.0.1", exRecordOne)]) :=
  ⟨⟨by decide,
    ((Nacos.Build_all_or_nothing Backend.downThenUp (Run.start Nacos.init false)
        [exRecordOne]).2.1 (by decide)).1,
    ((Nacos.Build_all_or_nothing Backend.downThenUp (Run.start Nacos.init false)
        [exRecordOne]).2.1 (by decide)).2⟩,
   ⟨by decide,
    ((Nacos.Build_all_or_nothing Backend.allOk (Run.start Nacos.init ())
        [exRecordNoNamespace]).1 (by decide)).1,
    ((Nacos.Build_all_or_nothing Backend.allOk (Run.start Nacos.init ())
        [exRecordNoNamespace]).1 (by decide)).2⟩,
   ⟨by decide,
    ((Nacos.Build_all_or_nothing Backend.allOk (Run.start Nacos.init ())
        [exRecordOne]).2.2 (by decide)).1,
    ((Nacos.Build_all_or_nothing Backend.allOk (Run.start Nacos.init ())
        [exRecordOne]).2.2 (by decide)).2.1.trans (by decide)⟩⟩

/-! ## C4: the new state after a failed `Build` -/

/-- C4, the code at the failing input: a `Build` of one record fails while the backend is down
and registers nothing; the next `Build`, given no records at all, finds that record still in
the new-state map, registers its endpoint, returns nil and adopts it into the old state,
although the desired state of an empty records list is empty. -/
theorem Nacos.Build_after_failure_uses_stale_records :
    (Nacos.Build Backend.downThenUp (Run.start Nacos.init false) [exRecordOne]).1 ≠ none ∧
    exAfterFailedBuild.calls.filterMap Call.registered = [] ∧
    exAfterFailedBuild.nacos.newService = [("public.web.10.0.0.1", exRecordOne)] ∧
    Nacos.mergeNew [] [] = [] ∧
    (Nacos.Build Backend.downThenUp exAfterFailedBuild []).1 = none ∧
    (Nacos.Build Backend.downThenUp exAfterFailedBuild []).2.calls.filterMap Call.registered =
      [("public", "web", "10.0.0.1")] ∧
    (Nacos.Build Backend.downThenUp exAfterFailedBuild []).2.nacos.oldService =
      [("public.web.10.0.0.1", exRecordOne)] := by
  decide

/-! ## C5: the key of the desired-state map -/

theorem append_dot_cancel (a a' b b' : List Char) (ha : '.' ∉ a) (ha' : '.' ∉ a')
    (h : a ++ '.' :: b = a' ++ '.' :: b') : a = a' ∧ b = b' := by
  induction a generalizing a' with
  | nil =>
    cases a' with
    | nil => simpa using h
    | cons c cs =>
      simp only [List.nil_append, List.cons_append, List.cons.injEq] at h
      simp [← h.1] at ha'
  | cons x xs ih =>
    cases a' with
    | nil =>
      simp only [List.nil_append, List.cons_append, List.cons.injEq] at h
      simp [h.1] at ha
    | cons c cs =>
      simp only [List.cons_append, List.cons.injEq] at h
      simp only [List.mem_cons, not_or] at ha ha'
      obtain ⟨e1, e2⟩ := ih cs ha.2 ha'.2 h.2
      exact ⟨by rw [h.1, e1], e2⟩

theorem Nacos.svcName_data (ns name ip : String) :
    (Nacos.svcName ns name ip).data = ns.data ++ '.' :: (name.data ++ '.' :: ip.data) := by
  simp [Nacos.svcName, String.data_append]

/-- C5, counterexample: the triples `(prod, api.v1, example.com)` and
`(prod, api, v1.example.com)` differ in name and endpoint and get the same key. -/
theorem Nacos.svcName_collision :
    ("prod", "api.v1", "example.com") ≠ ("prod", "api", "v1.example.com") ∧
    Nacos.svcName "prod" "api.v1" "example.com" = Nacos.svcName "prod" "api" "v1.example.com" := by
  decide

/-- C5, amended: on triples whose registry-namespace and name contain no `.`, the key is a
faithful encoding: two such triples that differ in any component get different keys. -/
theorem Nacos.svcName_injective_of_no_dot (ns name ip ns' name' ip' : String)
    (hns : '.' ∉ ns.data) (hname : '.' ∉ name.data)
    (hns' : '.' ∉ ns'.data) (hname' : '.' ∉ name'.data)
    (hne : (ns, name, ip) ≠ (ns', name', ip')) :
    Nacos.svcName ns name ip ≠ Nacos.svcName ns' name' ip' := by
  intro h
  have hd := congrArg String.data h
  rw [Nacos.svcName_data, Nacos.svcName_data] at hd
  obtain ⟨e1, e2⟩ := append_dot_cancel _ _ _ _ hns hns' hd
  obtain ⟨e3, e4⟩ := append_dot_cancel _ _ _ _ hname hname' e2
  apply hne
  have a1 : ns = ns' := String.ext e1
  have a2 : name = name' := String.ext e3
  have a3 : ip = ip' := String.ext e4
  rw [a1, a2, a3]

/-- C5, witness: two endpoints of one service in one registry-namespace get different keys. -/
theorem Nacos.svcName_injective_of_no_dot_witness :
    Nacos.svcName "public" "web" "10.0.0.1" ≠ Nacos.svcName "public" "web" "10.0.0.2" :=
  Nacos.svcName_injective_of_no_dot "public" "web" "10.0.0.1" "public" "web" "10.0.0.2"
    (by decide) (by decide) (by decide) (by decide) (by decide)

/-! ## C6: a mutator that changes nothing -/

/-- C6, the code at the failing input: the Service `default/web` carries neither change marker,
the mutator of `rebuild` returns the fetched object itself, the client accepts every call;
`apply` issues a whole-object update and a status update. -/
theorem StatusUpdateHandler.apply_noop_writes_twice :
    labelGet? exNodePortService.Labels "nacosbridge.io/spec-changed" = none ∧
    labelGet? exNodePortService.Labels "nacosbridge.io/status-changed" = none ∧
    exNoopUpdate.Mutator (.service exNodePortService) = .service exNodePortService ∧
    (StatusUpdateHandler.apply Client.single exNoopUpdate (.service exNodePortService, [])).2 =
      [Write.Update (.service exNodePortService),
       Write.StatusUpdate (.service exNodePortService)] := by
  decide

/-! ## C7: an update the admission predicate rejects -/

/-- C7, counterexample: the cache holds the ConfigMap `default/bridge`; an updated version of it
whose label is no longer `"true"` is rejected by the admission predicate, and after inserting it
the cache still holds an entry for `default/bridge` (the reconciler does not even hand such an
update to the cache). -/
theorem Cache.rejected_update_keeps_entry :
    Cache.holds exCacheWithConfigMap (.configMap exConfigMapUnlabelled) = true ∧
    Cache.accepts (.configMap exConfigMapUnlabelled) = false ∧
    Cache.holds (Cache.Insert exCacheWithConfigMap (.configMap exConfigMapUnlabelled)).2
      (.configMap exConfigMapUnlabelled) = true ∧
    GoMap.get? (Cache.Insert exCacheWithConfigMap (.configMap exConfigMapUnlabelled)).2.configmaps
      exConfigMapUnlabelled.key = some exConfigMap ∧
    ConfigMap.Reconcile exConfigMap.key (.found exConfigMapUnlabelled) = none := by
  decide

/-- C7, amended: inserting a resource that its kind's admission predicate rejects returns false
and leaves the cache exactly as it was, so an entry stored under the same identity stays, with
its old contents; it is a `Delete` of that identity after which no entry is left. -/
theorem Cache.insert_rejected_unchanged (c : Cache) (obj : Obj)
    (h : Cache.accepts obj = false) :
    Cache.Insert c obj = (false, c) ∧
    Cache.holds (Cache.Insert c obj).2 obj = Cache.holds c obj ∧
    Cache.holds (Cache.Delete (Cache.Insert c obj).2 obj).2 obj = false := by
  have h1 := Cache.insert_of_not_accepts c obj h
  refine ⟨h1, by rw [h1], Cache.holds_delete _ _⟩

/-- C7, witness: the amended statement at the cache holding `default/bridge` and the updated
version without the label. -/
theorem Cache.insert_rejected_unchanged_witness :
    Cache.accepts (.configMap exConfigMapUnlabelled) = false ∧
    Cache.Insert exCacheWithConfigMap (.configMap exConfigMapUnlabelled)
      = (false, exCacheWithConfigMap) ∧
    Cache.holds exCacheWithConfigMap (.configMap exConfigMapUnlabelled) = true :=
  ⟨by decide,
   (Cache.insert_rejected_unchanged exCacheWithConfigMap (.configMap exConfigMapUnlabelled)
      (by decide)).1,
   by decide⟩

/-! ## C8: the metadata of a registration request -/

/-- C8, the code at the failing input: the record carries the metadata entry `team = a`; the
one register call made for it carries exactly the two fixed provenance entries, and no entry
`team`. -/
theorem Nacos.registerService_drops_record_metadata :
    GoMap.get? exRecordOne.Metadata "team" = some "a" ∧
    (Nacos.registerService Backend.allOk (Run.start Nacos.init ()) exRecordOne).1 = none ∧
    (Nacos.registerService Backend.allOk (Run.start Nacos.init ()) exRecordOne).2.calls.filterMap
        Call.metadata =
      [[("created_by", "nacosbridge.io"), ("cluster", "k8s.service")]] ∧
    GoMap.get? (Nacos.registerParam exRecordOne "10.0.0.1").Metadata "team" = none := by
  decide

/-! ## C9: one backend connection per registry-namespace -/

/-- C9, the code at the failing input: after a client for `public` has been created, the
connection map of the adapter is still empty, and asking for `public` again creates a second
client; two successive registrations in `public` create two clients. -/
theorem Nacos.generateNamespaceClient_creates_again :
    exAfterClient.calls.filterMap Call.created = ["public"] ∧
    exAfterClient.nacos.namespaceClients = [] ∧
    (Nacos.generateNamespaceClient Backend.allOk exAfterClient "public").2.calls.filterMap
        Call.created = ["public", "public"] ∧
    (Nacos.registerService Backend.allOk
        (Nacos.registerService Backend.allOk (Run.start Nacos.init ()) exRecordOne).2
        exRecordOne).2.calls.filterMap Call.created = ["public", "public"] := by
  decide

/-! ## C10: the EXTERNAL strategy with node-port exposure -/

theorem GoMap.get?_foldl_put_true (items : List String) (m : GoMap String Bool) (k : String) :
    GoMap.get? (items.foldl (fun m name => GoMap.put m name true) m) k =
      if k ∈ items then some true else GoMap.get? m k := by
  induction items generalizing m with
  | nil => simp
  | cons x xs ih =>
    simp only [List.foldl_cons, ih, List.mem_cons]
    by_cases h1 : k ∈ xs
    · simp [h1]
    · by_cases h2 : x = k
      · subst h2
        simp [h1, GoMap.get?_put_self]
      · have h3 : ¬ k = x := fun e => h2 e.symm
        simp [h1, h3, GoMap.get?_put_other _ _ _ _ h2]

theorem boolGet_openPortName (svc : corev1.Service) (k : String) :
    boolGet (openPortName svc) k = decide (k ∈ openPortItems svc) := by
  unfold openPortName openPortItems boolGet
  cases labelGet? svc.Labels REGISTRY_OPENPORT with
  | none => simp [GoMap.get?]
  | some ns =>
    simp only [GoMap.get?_foldl_put_true]
    by_cases h : k ∈ strings.Split ns ',' <;> simp [h, GoMap.get?]

theorem generateServiceInfosForExternal_endpoints (svc : corev1.Service) (ips : List String)
    (f : corev1.ServicePort → Int) :
    (generateServiceInfosForExternal svc ips (some f)).map (fun r => (r.IP, r.Port)) =
      (svc.Spec.Ports.filter (fun p => decide (p.Name ∈ openPortItems svc))).map
        (fun p => (ips, f p)) := by
  unfold generateServiceInfosForExternal
  simp only [boolGet_openPortName]
  induction svc.Spec.Ports with
  | nil => simp
  | cons p ps ih =>
    by_cases h : p.Name ∈ openPortItems svc
    · simp only [List.filterMap_cons, List.filter_cons, h, decide_True, decide_False,
        Bool.not_true, Bool.not_false, if_true, if_false, List.map_cons, ih]
      simpa using ih
    · simp only [List.filterMap_cons, List.filter_cons, h, decide_True, decide_False,
        Bool.not_true, Bool.not_false, if_true, if_false, List.map_cons, ih]
      simp [ih]

/-- C10: for a service that carries the publish label and passes the namespace allow-list, of
type `external` with node-port exposure, and a non-empty list of node IPs, the records of
`GenerateServiceInfos` are, in the order of the service ports, one per port whose name is an
item of the comma-separated open-port label, each with the full node-IP list as endpoints and
the port's node port as port. -/
theorem GenerateServiceInfos_external_nodePort (svc : corev1.Service) (nodeIps : List String)
    (selectNamespace : GoMap String Bool)
    (hpub : (labelGet? svc.Labels REGISTRY_SERVICE_NAME).isSome = true)
    (hsel : selectNamespace = [] ∨ boolGet selectNamespace svc.Namespace = true)
    (htype : labelGet svc.Labels REGISTRY_SERVICE_TYPE = "external")
    (hnp : svc.Spec.Type_ = corev1.ServiceTypeNodePort)
    (hips : nodeIps ≠ []) :
    (GenerateServiceInfos svc nodeIps selectNamespace).map (fun r => (r.IP, r.Port)) =
      (svc.Spec.Ports.filter (fun p => decide (p.Name ∈ openPortItems svc))).map
        (fun p => (nodeIps, p.NodePort)) := by
  have hlab : svc.Labels.isNone = false := by
    cases hl : svc.Labels with
    | none => simp [hl, labelGet?] at hpub
    | some l => rfl
  have hsel2 : (decide (0 < selectNamespace.length) && !boolGet selectNamespace svc.Namespace)
      = false := by
    rcases hsel with h | h
    · simp [h]
    · simp [h]
  have hlen : 0 < nodeIps.length := List.length_pos.mpr hips
  have e1 : ¬ (corev1.ServiceTypeNodePort = corev1.ServiceTypeLoadBalancer) := by decide
  have e2 : ¬ (corev1.ServiceTypeNodePort = corev1.ServiceTypeExternalName) := by decide
  have e3 : ¬ ("external" = "cluster") := by decide
  unfold GenerateServiceInfos
  rw [if_neg (by simp [hlab]), if_neg (by simp [hpub]), if_neg (by simp [hsel2]), htype,
    if_neg e3, if_pos rfl, hnp, if_neg e1, if_neg e2, if_pos rfl, if_pos hlen]
  exact generateServiceInfosForExternal_endpoints svc nodeIps _

/-- C10, witness: the scenario `publish=true`, type `external`, node-port exposure,
open-port `http`, node IPs `[10.0.0.1, 10.0.0.2]`, node port 31000 yields the single record
with both node IPs as endpoints and port 31000 (not the service port 80). -/
theorem GenerateServiceInfos_external_nodePort_witness :
    (GenerateServiceInfos exNodePortService ["10.0.0.1", "10.0.0.2"] []).map
        (fun r => (r.IP, r.Port)) = [(["10.0.0.1", "10.0.0.2"], 31000)] ∧
    (GenerateServiceInfos exNodePortService ["10.0.0.1", "10.0.0.2"] []).length = 1 :=
  ⟨(GenerateServiceInfos_external_nodePort exNodePortService ["10.0.0.1", "10.0.0.2"] []
      (by decide) (Or.inl rfl) (by decide) (by decide) (by decide)).trans (by decide),
   by decide⟩

/-! ## Lemmas on the projection -/

theorem GenerateServiceInfos_eligible (svc : corev1.Service) (nodeIps : List String)
    (selectNamespace : GoMap String Bool)
    (hpub : (labelGet? svc.Labels REGISTRY_SERVICE_NAME).isSome = true)
    (hsel : selectNamespace = [] ∨ boolGet selectNamespace svc.Namespace = true) :
    GenerateServiceInfos svc nodeIps selectNamespace =
      if labelGet svc.Labels REGISTRY_SERVICE_TYPE = "cluster" then
        generateServiceInfosForCluster svc
      else if labelGet svc.Labels REGISTRY_SERVICE_TYPE = "external" then
        if svc.Spec.Type_ = corev1.ServiceTypeLoadBalancer then
          if svc.Spec.LoadBalancerIP ≠ "" then
            generateServiceInfosForExternal svc [svc.Spec.LoadBalancerIP] none
          else []
        else if svc.Spec.Type_ = corev1.ServiceTypeExternalName then
          if svc.Spec.ExternalName ≠ "" then
            generateServiceInfosForExternal svc [svc.Spec.ExternalName] none
          else []
        else if svc.Spec.Type_ = corev1.ServiceTypeNodePort then
          if 0 < nodeIps.length then
            generateServiceInfosForExternal svc nodeIps (some (fun port => port.NodePort))
          else []
        else []
      else if labelGet svc.Labels REGISTRY_SERVICE_TYPE = "gateway" then
        generateServiceInfosForGateway svc
      else [] := by
  have hlab : svc.Labels.isNone = false := by
    cases hl : svc.Labels with
    | none => simp [hl, labelGet?] at hpub
    | some l => rfl
  have hsel2 : (decide (0 < selectNamespace.length) && !boolGet selectNamespace svc.Namespace)
      = false := by
    rcases hsel with h | h
    · simp [h]
    · simp [h]
  unfold GenerateServiceInfos
  rw [if_neg (by simp [hlab]), if_neg (by simp [hpub]), if_neg (by simp [hsel2])]

theorem baseServiceName_eq (svc : corev1.Service) : baseServiceName svc = Spec.baseName svc := by
  unfold baseServiceName Spec.baseName
  cases labelGet? svc.Labels REGISTRY_SERVICE_NAME <;> rfl

theorem portServiceName_eq (svc : corev1.Service) (port : corev1.ServicePort) :
    portServiceName svc port = Spec.recordNameNonEmpty svc port.Name := by
  unfold portServiceName Spec.recordNameNonEmpty labelGet
  rw [baseServiceName_eq]
  cases hl : svc.Labels with
  | none => simp [labelGet?]
  | some l =>
    cases hg : labelGet? (some l) (REGISTRY_PORTNAME ++ port.Name) with
    | none => simp
    | some v => by_cases hv : v = "" <;> simp [hv]

theorem registryNamespace_eq (svc : corev1.Service) :
    registryNamespace svc = Spec.registryNamespace svc := by
  unfold registryNamespace Spec.registryNamespace labelGet
  cases hg : labelGet? svc.Labels REGISTRY_SERVICE_NAMESPACE with
  | none => simp
  | some v => by_cases hv : v = "" <;> simp [hv]

theorem filterMap_open_ports {β γ : Type} (svc : corev1.Service) (ports : List corev1.ServicePort)
    (mk : corev1.ServicePort → β) (g : β → γ) :
    (ports.filterMap (fun port =>
        if (!boolGet (openPortName svc) port.Name) = true then none else some (mk port))).map g =
      (ports.filter (fun p => decide (p.Name ∈ openPortItems svc))).map (fun p => g (mk p)) := by
  induction ports with
  | nil => rfl
  | cons p ps ih =>
    by_cases h : p.Name ∈ openPortItems svc
    · have hb : boolGet (openPortName svc) p.Name = true := by
        rw [boolGet_openPortName]; simpa using h
      rw [List.filterMap_cons_some (b := mk p) (by simp [hb]),
        List.filter_cons_of_pos (by simpa using h), List.map_cons, List.map_cons, ih]
    · have hb : boolGet (openPortName svc) p.Name = false := by
        rw [boolGet_openPortName]; simpa using h
      rw [List.filterMap_cons_none (by simp [hb]),
        List.filter_cons_of_neg (by simpa using h), ih]

/-! ## C11: the GATEWAY strategy -/

theorem int32_of_range (v : Int) (h1 : -(2 : Int) ^ 31 ≤ v) (h2 : v < (2 : Int) ^ 31) :
    int32 v = v := by
  unfold int32
  have h3 : (0 : Int) ≤ v + 2 ^ 31 := by omega
  have h4 : v + 2 ^ 31 < 2 ^ 32 := by omega
  rw [Int.emod_eq_of_lt h3 h4]
  omega

theorem gateway_filterMap (labels : List (String × String)) (mk : Int → Service)
    (g : Service → List String × Int) :
    (labels.filterMap (fun kv =>
        if strings.HasPrefix kv.1 REGISTRY_SERVICE_DOMIN_PORT = true then
          match strconv.Atoi kv.2 with
          | none => none
          | some port => some (mk port)
        else none)).map g =
      (labels.filter (fun kv => strings.HasPrefix kv.1 REGISTRY_SERVICE_DOMIN_PORT)).filterMap
        (fun kv => (strconv.Atoi kv.2).map (fun port => g (mk port))) := by
  induction labels with
  | nil => rfl
  | cons kv rest ih =>
    by_cases h : strings.HasPrefix kv.1 REGISTRY_SERVICE_DOMIN_PORT = true
    · have hf : (kv :: rest).filter
          (fun kv => strings.HasPrefix kv.1 REGISTRY_SERVICE_DOMIN_PORT) =
          kv :: rest.filter (fun kv => strings.HasPrefix kv.1 REGISTRY_SERVICE_DOMIN_PORT) :=
        List.filter_cons_of_pos h
      rw [hf]
      cases ha : strconv.Atoi kv.2 with
      | none =>
        rw [List.filterMap_cons_none (by simp [h, ha]), List.filterMap_cons_none (by simp [ha]),
          ih]
      | some port =>
        rw [List.filterMap_cons_some (b := mk port) (by simp [h, ha]),
          List.filterMap_cons_some (b := g (mk port)) (by simp [ha]), List.map_cons, ih]
    · have hf : (kv :: rest).filter
          (fun kv => strings.HasPrefix kv.1 REGISTRY_SERVICE_DOMIN_PORT) =
          rest.filter (fun kv => strings.HasPrefix kv.1 REGISTRY_SERVICE_DOMIN_PORT) :=
        List.filter_cons_of_neg h
      rw [hf, List.filterMap_cons_none (by simp [h]), ih]

/-- C11, counterexample: `shop/front` selects the gateway strategy and carries the per-port
domain label value `4294967376`; the record made for it has port 80, not the integer
4294967376 the value denotes. -/
theorem GenerateServiceInfos_gateway_port_wraps :
    labelGet? exGatewayService.Labels "nacosbridge.io/service-domain-3" = some "4294967376" ∧
    strconv.Atoi "4294967376" = some 4294967376 ∧
    (GenerateServiceInfos exGatewayService [] []).map (fun r => (r.IP, r.Port)) =
      [(["shop.example.com"], 443), (["shop.example.com"], 80)] := by
  decide

/-- C11, amended: for a service that carries the publish label and passes the namespace
allow-list, of type `gateway`: without the external-domain label the result is empty;
otherwise the records are, in the iteration order of the labels, one per per-port domain
label whose value `strconv.Atoi` accepts, each with the declared domain as its single endpoint
and the accepted integer converted to `int32` as port, which is that integer when it lies in
the 32-bit range; a per-port label whose value is rejected yields no record and leaves the
records of the other labels as they are. -/
theorem GenerateServiceInfos_gateway (svc : corev1.Service) (nodeIps : List String)
    (selectNamespace : GoMap String Bool)
    (hpub : (labelGet? svc.Labels REGISTRY_SERVICE_NAME).isSome = true)
    (hsel : selectNamespace = [] ∨ boolGet selectNamespace svc.Namespace = true)
    (htype : labelGet svc.Labels REGISTRY_SERVICE_TYPE = "gateway") :
    ((GenerateServiceInfos svc nodeIps selectNamespace).map (fun r => (r.IP, r.Port)) =
      match labelGet? svc.Labels REGISTRY_SERVICE_DOMIN with
      | none => []
      | some domin =>
        (domainPortLabels svc).filterMap (fun kv =>
          (strconv.Atoi kv.2).map (fun port => ([domin], int32 port)))) ∧
    (∀ v : Int, -(2 : Int) ^ 31 ≤ v → v < (2 : Int) ^ 31 → int32 v = v) := by
  refine ⟨?_, int32_of_range⟩
  have e1 : ¬ ("gateway" = "cluster") := by decide
  have e2 : ¬ ("gateway" = "external") := by decide
  rw [GenerateServiceInfos_eligible svc nodeIps selectNamespace hpub hsel, htype,
    if_neg e1, if_neg e2, if_pos rfl]
  unfold generateServiceInfosForGateway domainPortLabels
  cases labelGet? svc.Labels REGISTRY_SERVICE_DOMIN with
  | none => rfl
  | some domin => exact gateway_filterMap _ _ _

/-- C11, witness: `shop/front` carries the per-port domain values `443`, `https` and
`4294967376`; it yields a record with port 443, none for `https`, and a record with port 80 for
the third. -/
theorem GenerateServiceInfos_gateway_witness :
    (GenerateServiceInfos exGatewayService [] []).map (fun r => (r.IP, r.Port)) =
      [(["shop.example.com"], 443), (["shop.example.com"], 80)] ∧
    strconv.Atoi "https" = none ∧ int32 443 = 443 :=
  ⟨(GenerateServiceInfos_gateway exGatewayService [] [] (by decide) (Or.inl rfl)
      (by decide)).1.trans (by decide),
   by decide,
   (GenerateServiceInfos_gateway exGatewayService [] [] (by decide) (Or.inl rfl)
      (by decide)).2 443 (by decide) (by decide)⟩

/-! ## C12: the CLUSTER strategy -/

/-- C12: for a service that carries the publish label and passes the namespace allow-list, of
type `cluster`, the records of `GenerateServiceInfos` are, in the order of the service ports,
one per port whose name is an item of the comma-separated open-port label and none for any
other port, each with the single endpoint `<name>.<namespace>.svc.cluster.local` and the
port's service port number. -/
theorem GenerateServiceInfos_cluster (svc : corev1.Service) (nodeIps : List String)
    (selectNamespace : GoMap String Bool)
    (hpub : (labelGet? svc.Labels REGISTRY_SERVICE_NAME).isSome = true)
    (hsel : selectNamespace = [] ∨ boolGet selectNamespace svc.Namespace = true)
    (htype : labelGet svc.Labels REGISTRY_SERVICE_TYPE = "cluster") :
    (GenerateServiceInfos svc nodeIps selectNamespace).map (fun r => (r.IP, r.Port)) =
      (svc.Spec.Ports.filter (fun p => decide (p.Name ∈ openPortItems svc))).map
        (fun p => ([svc.Name ++ "." ++ svc.Namespace ++ ".svc.cluster.local"], p.Port)) := by
  rw [GenerateServiceInfos_eligible svc nodeIps selectNamespace hpub hsel, if_pos htype]
  unfold generateServiceInfosForCluster
  exact filterMap_open_ports svc svc.Spec.Ports _ _

/-- C12, witness: `shop/cart` has the ports `http`, `metrics`, `grpc` and the open-port label
`http,grpc`; it yields the records for `http` and `grpc`, in this order, with the cluster DNS
name as endpoint and the service ports 80 and 9000. -/
theorem GenerateServiceInfos_cluster_witness :
    (GenerateServiceInfos exClusterService [] []).map (fun r => (r.IP, r.Port)) =
      [(["cart.shop.svc.cluster.local"], 80), (["cart.shop.svc.cluster.local"], 9000)] :=
  (GenerateServiceInfos_cluster exClusterService [] [] (by decide) (Or.inl rfl)
    (by decide)).trans (by decide)

/-! ## C13: services that are not eligible -/

theorem boolGet_selectNamespace (ns x : String) :
    boolGet (Server.selectNamespace ns) x = decide (ns ≠ "" ∧ x ∈ strings.Split ns ',') := by
  unfold Server.selectNamespace boolGet
  by_cases h : ns = ""
  · simp [h, GoMap.get?]
  · rw [if_pos h, GoMap.get?_foldl_put_true]
    by_cases hx : x ∈ strings.Split ns ',' <;> simp [h, hx, GoMap.get?]

/-- C13: `GenerateServiceInfos` returns no records for a service without the publish label,
and none when the allow-list is non-empty and does not hold the service's namespace, whatever
the type, ports, other labels and node IPs are; with an empty allow-list the result is the one
obtained with an allow-list holding the service's namespace.  For the allow-list `rebuild`
builds from the comma-separated string `ns` of an adapter: it is empty when `ns` is empty, and
a service whose namespace is no item of a non-empty `ns` yields no records. -/
theorem GenerateServiceInfos_not_eligible (svc : corev1.Service) (nodeIps : List String)
    (selectNamespace : GoMap String Bool) (ns : String) :
    (labelGet? svc.Labels REGISTRY_SERVICE_NAME = none →
      GenerateServiceInfos svc nodeIps selectNamespace = []) ∧
    (selectNamespace ≠ [] → boolGet selectNamespace svc.Namespace = false →
      GenerateServiceInfos svc nodeIps selectNamespace = []) ∧
    GenerateServiceInfos svc nodeIps [] =
      GenerateServiceInfos svc nodeIps [(svc.Namespace, true)] ∧
    Server.selectNamespace "" = [] ∧
    (ns ≠ "" → svc.Namespace ∉ strings.Split ns ',' →
      GenerateServiceInfos svc nodeIps (Server.selectNamespace ns) = []) := by
  have hguard : ∀ sel : GoMap String Bool, sel ≠ [] → boolGet sel svc.Namespace = false →
      GenerateServiceInfos svc nodeIps sel = [] := by
    intro sel hne hb
    have hlen : 0 < sel.length := List.length_pos.mpr hne
    unfold GenerateServiceInfos
    by_cases h1 : svc.Labels.isNone = true
    · rw [if_pos h1]
    · rw [if_neg h1]
      by_cases h2 : (!(labelGet? svc.Labels REGISTRY_SERVICE_NAME).isSome) = true
      · rw [if_pos h2]
      · rw [if_neg h2, if_pos (by simp [hlen, hb])]
  refine ⟨?_, hguard selectNamespace, ?_, by decide, ?_⟩
  · intro h
    unfold GenerateServiceInfos
    by_cases h1 : svc.Labels.isNone = true
    · rw [if_pos h1]
    · rw [if_neg h1, if_pos (by simp [h])]
  · unfold GenerateServiceInfos
    simp [boolGet, GoMap.get?]
  · intro hns hmem
    have hb : boolGet (Server.selectNamespace ns) svc.Namespace = false := by
      rw [boolGet_selectNamespace]; simp [hmem]
    have hne : Server.selectNamespace ns ≠ [] := by
      unfold Server.selectNamespace
      rw [if_pos hns]
      intro hnil
      have hsplit : strings.Split ns ',' ≠ [] := by
        unfold strings.Split
        intro hm
        have := List.map_eq_nil_iff.mp hm
        cases hd : ns.data with
        | nil => simp [hd, splitChars] at this
        | cons c cs =>
          rw [hd] at this
          simp only [splitChars] at this
          split at this
          · simp at this
          · split at this <;> simp at this
      cases hs : strings.Split ns ',' with
      | nil => exact hsplit hs
      | cons a as =>
        have h0 := GoMap.get?_foldl_put_true (strings.Split ns ',') [] a
        rw [hnil, hs] at h0
        simp [GoMap.get?] at h0
    exact hguard _ hne hb

/-- C13, witness: `shop/cart` yields two records with an empty allow-list and with the
allow-list `shop`, none with the allow-list `prod,test`, and none once its publish label is
taken away. -/
theorem GenerateServiceInfos_not_eligible_witness :
    (GenerateServiceInfos exClusterService [] []).length = 2 ∧
    (GenerateServiceInfos exClusterService [] (Server.selectNamespace "shop")).length = 2 ∧
    GenerateServiceInfos exClusterService [] (Server.selectNamespace "prod,test") = [] ∧
    GenerateServiceInfos { exClusterService with Labels := some [
      ("nacosbridge.io/service-type", "cluster"), ("nacosbridge.io/openport", "http,grpc")] }
      [] [] = [] :=
  ⟨by decide, by decide,
   (GenerateServiceInfos_not_eligible exClusterService [] [] "prod,test").2.2.2.2
     (by decide) (by decide),
   (GenerateServiceInfos_not_eligible { exClusterService with Labels := some [
      ("nacosbridge.io/service-type", "cluster"), ("nacosbridge.io/openport", "http,grpc")] }
      [] [] "").1 (by decide)⟩

/-! ## C14: the name and the registry-namespace of a record -/

theorem mem_cluster_namespace (svc : corev1.Service) (r : Service)
    (h : r ∈ generateServiceInfosForCluster svc) : r.NacosNs = Spec.registryNamespace svc := by
  unfold generateServiceInfosForCluster at h
  obtain ⟨port, _, hp⟩ := List.mem_filterMap.mp h
  split at hp
  · simp at hp
  · simp only [Option.some.injEq] at hp
    rw [← hp, registryNamespace_eq]

theorem mem_external_namespace (svc : corev1.Service) (ips : List String)
    (portMapper : Option (corev1.ServicePort → Int)) (r : Service)
    (h : r ∈ generateServiceInfosForExternal svc ips portMapper) :
    r.NacosNs = Spec.registryNamespace svc := by
  unfold generateServiceInfosForExternal at h
  obtain ⟨port, _, hp⟩ := List.mem_filterMap.mp h
  split at hp
  · simp at hp
  · simp only [Option.some.injEq] at hp
    rw [← hp, registryNamespace_eq]

theorem mem_gateway_name_namespace (svc : corev1.Service) (r : Service)
    (h : r ∈ generateServiceInfosForGateway svc) :
    r.Name = Spec.baseName svc ∧ r.NacosNs = Spec.registryNamespace svc := by
  unfold generateServiceInfosForGateway at h
  simp only at h
  split at h
  · simp at h
  · obtain ⟨kv, _, hp⟩ := List.mem_filterMap.mp h
    split at hp
    · split at hp
      · simp at hp
      · simp only [Option.some.injEq] at hp
        rw [← hp, registryNamespace_eq, baseServiceName_eq]
        exact ⟨rfl, rfl⟩
    · simp at hp

theorem mem_GenerateServiceInfos_namespace (svc : corev1.Service) (nodeIps : List String)
    (selectNamespace : GoMap String Bool) (r : Service)
    (h : r ∈ GenerateServiceInfos svc nodeIps selectNamespace) :
    r.NacosNs = Spec.registryNamespace svc := by
  unfold GenerateServiceInfos at h
  repeat' split at h
  all_goals first
    | exact mem_cluster_namespace svc r h
    | exact mem_external_namespace svc _ _ r h
    | exact (mem_gateway_name_namespace svc r h).2
    | simp at h

/-- C14, counterexample: `shop/cart` carries the per-port name-override label for its port
`http`, with the empty value; the record for `http` is not named by that value but by the
base-name label, `cart-api`. -/
theorem GenerateServiceInfos_empty_port_override :
    labelGet? exClusterService.Labels (REGISTRY_PORTNAME ++ "http") = some "" ∧
    Spec.recordName exClusterService "http" = "" ∧
    (GenerateServiceInfos exClusterService [] []).map (fun r => (r.Port, r.Name)) =
      [(80, "cart-api"), (9000, "cart-grpc")] := by
  decide

/-- C14, amended: the records of the CLUSTER and of the EXTERNAL strategy are named, port by
port, by the value of the per-port name-override label when the service carries it with a
non-empty value, otherwise by the value of the base-name label when the service carries it,
otherwise by the resource's own name; every record of the GATEWAY strategy is named by the
base-name label when carried, otherwise by the resource's own name; and the
registry-namespace of every record `GenerateServiceInfos` produces is the value of the
namespace-override label, or empty when that label is absent. -/
theorem GenerateServiceInfos_record_names (svc : corev1.Service) (ips nodeIps : List String)
    (portMapper : Option (corev1.ServicePort → Int)) (selectNamespace : GoMap String Bool) :
    (generateServiceInfosForCluster svc).map (fun r => r.Name) =
      (svc.Spec.Ports.filter (fun p => decide (p.Name ∈ openPortItems svc))).map
        (fun p => Spec.recordNameNonEmpty svc p.Name) ∧
    (generateServiceInfosForExternal svc ips portMapper).map (fun r => r.Name) =
      (svc.Spec.Ports.filter (fun p => decide (p.Name ∈ openPortItems svc))).map
        (fun p => Spec.recordNameNonEmpty svc p.Name) ∧
    (∀ r ∈ generateServiceInfosForGateway svc, r.Name = Spec.baseName svc) ∧
    (∀ r ∈ GenerateServiceInfos svc nodeIps selectNamespace,
      r.NacosNs = Spec.registryNamespace svc) := by
  refine ⟨?_, ?_, fun r h => (mem_gateway_name_namespace svc r h).1,
    fun r h => mem_GenerateServiceInfos_namespace svc nodeIps selectNamespace r h⟩
  · unfold generateServiceInfosForCluster
    rw [filterMap_open_ports]
    simp only [portServiceName_eq]
  · unfold generateServiceInfosForExternal
    rw [filterMap_open_ports]
    simp only [portServiceName_eq]

/-! ## C15: the metadata projected from the annotations -/

/-- C15, the code at the failing input: of the annotations `nacosbridge.io/matedata.team = a`,
`nacosbridge.io/matedata-env = x` and `owner = ops`, only the first is copied, although the
second starts with the prefix `nacosbridge.io/matedata` too, and it is copied under the key
`.team`: the test is for the prefix followed by a dot, the key is cut by the prefix alone.
`GenerateServiceConfig` tests and cuts with the same string, dot included. -/
theorem GeneratePrefixConfig_keeps_the_dot :
    SERVICE_MATEDATA = "nacosbridge.io/matedata" ∧
    GeneratePrefixConfig SERVICE_MATEDATA
        (some [("nacosbridge.io/matedata.team", "a"), ("nacosbridge.io/matedata-env", "x"),
               ("owner", "ops")]) = [(".team", "a")] ∧
    (GenerateServiceInfos exClusterService [] []).map (fun r => r.Metadata) =
      [[(".team", "a")], [(".team", "a")]] ∧
    GenerateServiceConfig "nacos" [("nacos.address", "127.0.0.1"), ("other.address", "::1")] =
      [("address", "127.0.0.1")] := by
  decide

/-! ## C16: a cycle without the designated configuration -/

theorem Server.findConfig_eq_empty (cms : List (types.NamespacedName × corev1.ConfigMap))
    (h : ∀ kv ∈ cms, ¬ (Cache.accepts (.configMap kv.2) = true ∧
      (labelGet? kv.2.Data "config.json").isSome = true)) :
    Server.findConfig cms = "" := by
  induction cms with
  | nil => rfl
  | cons kv rest ih =>
    obtain ⟨k, c⟩ := kv
    have hrest := ih (fun kv hkv => h kv (List.mem_cons_of_mem _ hkv))
    have hc := h (k, c) (List.mem_cons_self _ _)
    simp only [Cache.accepts] at hc
    simp only [Server.findConfig]
    split
    · rename_i hacc
      cases hd : labelGet? c.Data "config.json" with
      | none => simpa using hrest
      | some content => exact absurd ⟨hacc, by simp [hd]⟩ hc
    · exact hrest

/-- C16: when no cached ConfigMap both passes the admission predicate and carries the data
key `config.json`, `rebuild` returns the error `config not found` and nothing else happens in
the cycle: no write-back request is sent, no adapter receives a `Config` or `Build` call, and
the adapters with their states, like the cache, are what they were. -/
theorem Server.rebuild_without_config {σ : Type} (load : String → Except String Config)
    (s : Server σ)
    (h : ∀ kv ∈ s.cache.configmaps, ¬ (Cache.accepts (.configMap kv.2) = true ∧
      (labelGet? kv.2.Data "config.json").isSome = true)) :
    (Server.rebuild load s).1 = some "config not found" ∧
    (Server.rebuild load s).2.sent = s.sent ∧
    (Server.rebuild load s).2.calls = s.calls ∧
    (Server.rebuild load s).2.svcRegistry = s.svcRegistry ∧
    (Server.rebuild load s).2.cache = s.cache := by
  have hf := Server.findConfig_eq_empty s.cache.configmaps h
  unfold Server.rebuild
  simp [hf]

/-- C16, witness: the only cached ConfigMap has the label and no `config.json`; the cycle
fails, sends nothing and calls no adapter, and the Nacos adapter still remembers the record it
applied before. -/
theorem Server.rebuild_without_config_witness :
    (Server.rebuild exLoad exServerNoConfig).1 = some "config not found" ∧
    (Server.rebuild exLoad exServerNoConfig).2.sent.length = 0 ∧
    (Server.rebuild exLoad exServerNoConfig).2.calls = [] ∧
    (Server.rebuild exLoad exServerNoConfig).2.svcRegistry.map (fun a => a.2.nacos.oldService) =
      [[("public.web.10.0.0.1", exRecordOne)]] :=
  ⟨(Server.rebuild_without_config exLoad exServerNoConfig (by decide)).1,
   by rw [(Server.rebuild_without_config exLoad exServerNoConfig (by decide)).2.1]; rfl,
   (Server.rebuild_without_config exLoad exServerNoConfig (by decide)).2.2.1,
   by rw [(Server.rebuild_without_config exLoad exServerNoConfig (by decide)).2.2.2.1]; decide⟩

/-! ## C17: a `Build` failure and the adapters after it -/

/-- C17, the code at the failing input: of two Nacos adapters the first has its backend down,
the second has it up.  The cycle configures the first adapter, its `Build` fails, and `rebuild`
returns that error: the only calls are the `Config` and the `Build` on position 0, the second
adapter receives neither and its state is untouched, although on its own it would have been
built without error.  A failed `Config`, in contrast, goes on to the next adapter. -/
theorem Server.rebuild_build_failure_stops_cycle :
    (Server.rebuild exLoad exServerTwoAdapters).1.isSome = true ∧
    (Server.rebuild exLoad exServerTwoAdapters).2.calls.map RegistryCall.index = [0, 0] ∧
    (Server.rebuild exLoad exServerTwoAdapters).2.svcRegistry.map (fun a => a.2.calls.length) =
      [1, 0] ∧
    (Server.rebuild exLoad { exServerTwoAdapters with
        svcRegistry := exServerTwoAdapters.svcRegistry.drop 1 }).1 = none ∧
    (Server.rebuild exLoad exServerConfigFails).1 = none ∧
    (Server.rebuild exLoad exServerConfigFails).2.calls.map RegistryCall.index = [0, 1, 1] := by
  decide

/-! ## C18: the debounce of the scheduler loop -/

theorem Server.Start.step_timer_not_due (s : Loop) (deadline now : Nat)
    (hp : s.pending = some deadline) (h : now < deadline) :
    Server.Start.step s (.timer now) = s := by
  simp [Server.Start.step, hp, Nat.not_le.mpr h]

theorem Server.Start.run_burst (s : Loop) (last : Nat) (ops : List (Nat × Op))
    (hp : s.pending = some (last + DELAY))
    (hb : Server.Start.burst s.cache last ops = true) :
    (Server.Start.run s ops).pending = some (Server.Start.lastTime last ops + DELAY) ∧
    (Server.Start.run s ops).rebuilds = s.rebuilds := by
  induction ops generalizing s last with
  | nil => exact ⟨hp, rfl⟩
  | cons e rest ih =>
    obtain ⟨now, op⟩ := e
    simp only [Server.Start.burst, Bool.and_eq_true, decide_eq_true_eq] at hb
    obtain ⟨⟨⟨_, hlt⟩, hmut⟩, hrest⟩ := hb
    simp only [Server.Start.run, Server.Start.lastTime]
    rw [Server.Start.step_timer_not_due s (last + DELAY) now hp hlt]
    have hstep : Server.Start.step s (.update now op) =
        { cache := (Server.onUpdate s.cache op).2, pending := some (now + DELAY),
          rebuilds := s.rebuilds } := by
      simp [Server.Start.step, hmut]
    rw [hstep]
    exact ih _ now rfl hrest

/-- C18: in the loop of `Start` as a step function on (cache, pending deadline, number of
rebuild cycles): an operation whose application returns true makes the pending deadline
`now + DELAY`, one whose application returns false leaves the pending deadline as it is, and
neither runs a rebuild; a timer step runs a rebuild only when a deadline is pending and has
come, and then nothing is pending.  Hence, from a state with nothing pending, operations that
each return true and each arrive less than `DELAY` after the one before run no rebuild while
they arrive, and the timer step after a quiet period of `DELAY` runs exactly one, after which
further timer steps run none. -/
theorem Server.Start.debounce (s : Loop) (now : Nat) (op : Op)
    (first : Nat) (op1 : Op) (rest : List (Nat × Op)) (quiet later : Nat) :
    ((Server.onUpdate s.cache op).1 = true →
      (Server.Start.step s (.update now op)).pending = some (now + DELAY) ∧
      (Server.Start.step s (.update now op)).rebuilds = s.rebuilds) ∧
    ((Server.onUpdate s.cache op).1 = false →
      (Server.Start.step s (.update now op)).pending = s.pending ∧
      (Server.Start.step s (.update now op)).rebuilds = s.rebuilds) ∧
    (Server.Start.step s (.timer now) = s ∨
      ((∃ deadline, s.pending = some deadline ∧ deadline ≤ now) ∧
        (Server.Start.step s (.timer now)).rebuilds = s.rebuilds + 1 ∧
        (Server.Start.step s (.timer now)).pending = none)) ∧
    (s.pending = none → (Server.onUpdate s.cache op1).1 = true →
      Server.Start.burst (Server.onUpdate s.cache op1).2 first rest = true →
      Server.Start.lastTime first rest + DELAY ≤ quiet →
      (Server.Start.run s ((first, op1) :: rest)).rebuilds = s.rebuilds ∧
      (Server.Start.step (Server.Start.run s ((first, op1) :: rest)) (.timer quiet)).rebuilds =
        s.rebuilds + 1 ∧
      (Server.Start.step (Server.Start.run s ((first, op1) :: rest)) (.timer quiet)).pending =
        none ∧
      (Server.Start.step
        (Server.Start.step (Server.Start.run s ((first, op1) :: rest)) (.timer quiet))
        (.timer later)).rebuilds = s.rebuilds + 1) := by
  refine ⟨?_, ?_, ?_, ?_⟩
  · intro h
    simp [Server.Start.step, h]
  · intro h
    simp [Server.Start.step, h]
  · cases hp : s.pending with
    | none => left; simp [Server.Start.step, hp]
    | some deadline =>
      by_cases hd : deadline ≤ now
      · right
        exact ⟨⟨deadline, rfl, hd⟩, by simp [Server.Start.step, hp, hd],
          by simp [Server.Start.step, hp, hd]⟩
      · left; simp [Server.Start.step, hp, hd]
  · intro hp hmut hb hq
    have h0 : Server.Start.step s (.timer first) = s := by
      simp [Server.Start.step, hp]
    have h1 : Server.Start.step s (.update first op1) =
        { cache := (Server.onUpdate s.cache op1).2, pending := some (first + DELAY),
          rebuilds := s.rebuilds } := by
      simp [Server.Start.step, hmut]
    have hrun : Server.Start.run s ((first, op1) :: rest) =
        Server.Start.run (Loop.mk (Server.onUpdate s.cache op1).2 (some (first + DELAY))
          s.rebuilds) rest := by
      simp only [Server.Start.run]
      rw [h0, h1]
    obtain ⟨r1, r2⟩ := Server.Start.run_burst
      (Loop.mk (Server.onUpdate s.cache op1).2 (some (first + DELAY)) s.rebuilds)
      first rest rfl hb
    rw [hrun]
    simp only at r2
    refine ⟨r2, ?_, ?_, ?_⟩
    · simp [Server.Start.step, r1, r2, hq]
    · simp [Server.Start.step, r1, hq]
    · simp [Server.Start.step, r1, r2, hq]

/-- C18, witness: three Services are added 2 s, 5 s and 9 s after time zero; no rebuild has
run when the last has arrived, the timer is due at 19 s, the timer step at 19 s runs the one
rebuild, and a fourth operation that deletes an unknown Service in between does not move the
deadline. -/
theorem Server.Start.debounce_witness :
    (Server.Start.run exLoopStart exBurst).rebuilds = 0 ∧
    (Server.Start.run exLoopStart exBurst).pending = some 19000000000 ∧
    (Server.Start.step (Server.Start.run exLoopStart exBurst) (.timer 19000000000)).rebuilds
      = 1 ∧
    (Server.Start.step (Server.Start.run exLoopStart exBurst)
      (.update 12000000000 (.opDelete (.service exRecordlessService)))).pending
      = some 19000000000 :=
  ⟨((Server.Start.debounce exLoopStart 0 (.opAdd (.service exNodePortService)) 2000000000
      (.opAdd (.service exNodePortService)) (exBurst.drop 1) 19000000000 0).2.2.2
      rfl (by decide) (by decide) (by decide)).1,
   by decide,
   ((Server.Start.debounce exLoopStart 0 (.opAdd (.service exNodePortService)) 2000000000
      (.opAdd (.service exNodePortService)) (exBurst.drop 1) 19000000000 0).2.2.2
      rfl (by decide) (by decide) (by decide)).2.1,
   ((Server.Start.debounce (Server.Start.run exLoopStart exBurst) 12000000000
      (.opDelete (.service exRecordlessService)) 0 (.opAdd (.service exNodePortService)) []
      0 0).2.1 (by decide)).1.trans (by decide)⟩

/-! ## C19: a record without a registry-namespace -/

theorem GoMap.mem_put {K V : Type} [DecidableEq K] (m : GoMap K V) (k : K) (v : V)
    (kv : K × V) (h : kv ∈ GoMap.put m k v) : kv ∈ m ∨ kv = (k, v) := by
  induction m with
  | nil => right; simpa [GoMap.put] using h
  | cons p rest ih =>
    obtain ⟨k', v'⟩ := p
    by_cases hk : k' = k
    · simp only [GoMap.put, hk, if_true, List.mem_cons] at h
      rcases h with h | h
      · right; exact h
      · left; exact List.mem_cons_of_mem _ h
    · simp only [GoMap.put, hk, if_false, List.mem_cons] at h
      rcases h with h | h
      · left; rw [h]; exact List.mem_cons_self _ _
      · rcases ih h with h2 | h2
        · left; exact List.mem_cons_of_mem _ h2
        · right; exact h2

theorem GoMap.contains_put {K V : Type} [DecidableEq K] (m : GoMap K V) (k k2 : K) (v : V) :
    GoMap.contains (GoMap.put m k v) k2 = (decide (k = k2) || GoMap.contains m k2) := by
  unfold GoMap.contains
  by_cases h : k = k2
  · subst h
    simp [GoMap.get?_put_self]
  · simp [GoMap.get?_put_other _ _ _ _ h, h]

theorem GoMap.mem_of_contains {K V : Type} [DecidableEq K] (m : GoMap K V) (k : K)
    (h : GoMap.contains m k = true) : ∃ v, (k, v) ∈ m := by
  induction m with
  | nil => simp [GoMap.contains, GoMap.get?] at h
  | cons p rest ih =>
    obtain ⟨k', v'⟩ := p
    by_cases hk : k' = k
    · exact ⟨v', by rw [hk]; exact List.mem_cons_self _ _⟩
    · simp only [GoMap.contains, GoMap.get?, hk, if_false] at h
      obtain ⟨v, hv⟩ := ih h
      exact ⟨v, List.mem_cons_of_mem _ hv⟩

theorem Nacos.mergeNew_cons (m : GoMap String Service) (svc : Service) (rest : List Service) :
    Nacos.mergeNew m (svc :: rest) = Nacos.mergeNew (Nacos.mergeRecord m svc) rest := rfl

theorem Nacos.mergeRecord_step (svc : Service) (ips : List String) :
    ∀ m0 : GoMap String Service,
      (∀ k, GoMap.contains m0 k = true →
        GoMap.contains (ips.foldl (fun m ip =>
          if GoMap.contains m (Nacos.svcName svc.NacosNs svc.Name ip) then m
          else GoMap.put m (Nacos.svcName svc.NacosNs svc.Name ip) svc) m0) k = true) ∧
      (∀ ip ∈ ips, GoMap.contains (ips.foldl (fun m ip =>
          if GoMap.contains m (Nacos.svcName svc.NacosNs svc.Name ip) then m
          else GoMap.put m (Nacos.svcName svc.NacosNs svc.Name ip) svc) m0)
            (Nacos.svcName svc.NacosNs svc.Name ip) = true) ∧
      (∀ kv ∈ ips.foldl (fun m ip =>
          if GoMap.contains m (Nacos.svcName svc.NacosNs svc.Name ip) then m
          else GoMap.put m (Nacos.svcName svc.NacosNs svc.Name ip) svc) m0,
        kv ∈ m0 ∨ (kv.2 = svc ∧ ∃ ip ∈ ips, kv.1 = Nacos.svcName svc.NacosNs svc.Name ip ∧
          GoMap.contains m0 kv.1 = false)) := by
  induction ips with
  | nil =>
    intro m0
    exact ⟨fun k h => h, fun ip h => by simp at h, fun kv h => Or.inl h⟩
  | cons ip ips ih =>
    intro m0
    simp only [List.foldl_cons]
    by_cases hc : GoMap.contains m0 (Nacos.svcName svc.NacosNs svc.Name ip) = true
    · rw [if_pos hc]
      obtain ⟨i1, i2, i3⟩ := ih m0
      refine ⟨i1, ?_, ?_⟩
      · intro ip2 hip2
        rcases List.mem_cons.mp hip2 with h | h
        · rw [h]; exact i1 _ hc
        · exact i2 ip2 h
      · intro kv hkv
        rcases i3 kv hkv with h | ⟨h1, ip2, h2, h3, h4⟩
        · exact Or.inl h
        · exact Or.inr ⟨h1, ip2, List.mem_cons_of_mem _ h2, h3, h4⟩
    · rw [if_neg hc]
      obtain ⟨i1, i2, i3⟩ := ih (GoMap.put m0 (Nacos.svcName svc.NacosNs svc.Name ip) svc)
      have hmono : ∀ k, GoMap.contains m0 k = true →
          GoMap.contains (GoMap.put m0 (Nacos.svcName svc.NacosNs svc.Name ip) svc) k = true := by
        intro k hk
        rw [GoMap.contains_put, hk]; simp
      refine ⟨fun k hk => i1 k (hmono k hk), ?_, ?_⟩
      · intro ip2 hip2
        rcases List.mem_cons.mp hip2 with h | h
        · rw [h]
          apply i1
          rw [GoMap.contains_put]; simp
        · exact i2 ip2 h
      · intro kv hkv
        rcases i3 kv hkv with h | ⟨h1, ip2, h2, h3, h4⟩
        · rcases GoMap.mem_put _ _ _ _ h with h5 | h5
          · exact Or.inl h5
          · refine Or.inr ⟨by rw [h5], ip, List.mem_cons_self _ _, by rw [h5], ?_⟩
            rw [h5]
            simpa using hc
        · refine Or.inr ⟨h1, ip2, List.mem_cons_of_mem _ h2, h3, ?_⟩
          rw [GoMap.contains_put] at h4
          simp only [Bool.or_eq_false_iff] at h4
          exact h4.2

theorem Nacos.mergeRecord_spec (m : GoMap String Service) (svc : Service) :
    (∀ k, GoMap.contains m k = true → GoMap.contains (Nacos.mergeRecord m svc) k = true) ∧
    (∀ ip ∈ svc.IP, GoMap.contains (Nacos.mergeRecord m svc)
      (Nacos.svcName svc.NacosNs svc.Name ip) = true) ∧
    (∀ kv ∈ Nacos.mergeRecord m svc,
      kv ∈ m ∨ (kv.2 = svc ∧ ∃ ip ∈ svc.IP, kv.1 = Nacos.svcName svc.NacosNs svc.Name ip ∧
        GoMap.contains m kv.1 = false)) :=
  Nacos.mergeRecord_step svc svc.IP m

theorem Nacos.mergeNew_spec (services : List Service) :
    ∀ m : GoMap String Service,
      (∀ k, GoMap.contains m k = true →
        GoMap.contains (Nacos.mergeNew m services) k = true) ∧
      (∀ svc ∈ services, ∀ ip ∈ svc.IP, GoMap.contains (Nacos.mergeNew m services)
        (Nacos.svcName svc.NacosNs svc.Name ip) = true) ∧
      (∀ kv ∈ Nacos.mergeNew m services,
        kv ∈ m ∨ (kv.2 ∈ services ∧ ∃ ip ∈ kv.2.IP,
          kv.1 = Nacos.svcName kv.2.NacosNs kv.2.Name ip)) := by
  induction services with
  | nil =>
    intro m
    exact ⟨fun k h => h, fun svc h => by simp at h, fun kv h => Or.inl h⟩
  | cons svc rest ih =>
    intro m
    rw [Nacos.mergeNew_cons]
    obtain ⟨i1, i2, i3⟩ := ih (Nacos.mergeRecord m svc)
    obtain ⟨r1, r2, r3⟩ := Nacos.mergeRecord_spec m svc
    refine ⟨fun k hk => i1 k (r1 k hk), ?_, ?_⟩
    · intro svc2 hsvc2 ip hip
      rcases List.mem_cons.mp hsvc2 with h | h
      · rw [h] at hip ⊢; exact i1 _ (r2 ip hip)
      · exact i2 svc2 h ip hip
    · intro kv hkv
      rcases i3 kv hkv with h | ⟨h1, h2⟩
      · rcases r3 kv h with h3 | ⟨h3, ip, h4, h5, _⟩
        · exact Or.inl h3
        · refine Or.inr ⟨by rw [h3]; exact List.mem_cons_self _ _, ip, by rw [h3]; exact h4, ?_⟩
          rw [h3]; exact h5
      · exact Or.inr ⟨List.mem_cons_of_mem _ h1, h2⟩

theorem Nacos.mem_onlyIn (a b : GoMap String Service) (k : String) (r : Service)
    (h : (k, r) ∈ a) (hb : GoMap.contains b k = false) : r ∈ Nacos.onlyIn a b := by
  unfold Nacos.onlyIn
  exact List.mem_filterMap.mpr ⟨(k, r), h, by simp [hb]⟩

theorem Nacos.registerAll_fails_of_empty_namespace {W : Type} (B : Backend W)
    (l : List Service) (s : Run W) (r : Service) (hr : r ∈ l) (hns : r.NacosNs = "") :
    (Nacos.registerAll B l s).1 ≠ none := by
  induction l generalizing s with
  | nil => simp at hr
  | cons svc rest ih =>
    simp only [Nacos.registerAll]
    cases hres : (Nacos.registerService B s svc).1 with
    | some err => simp
    | none =>
      dsimp only
      rcases List.mem_cons.mp hr with h | h
      · exfalso
        rw [← h] at hres
        simp [Nacos.registerService, hns] at hres
      · exact ih _ h

theorem Nacos.Build_ok_registerAll {W : Type} (B : Backend W) (s : Run W)
    (services : List Service) (h : (Nacos.Build B s services).1 = none) :
    (Nacos.registerAll B
      (Nacos.onlyIn (Nacos.mergeNew s.nacos.newService services) s.nacos.oldService)
      { s with nacos := { s.nacos with
        newService := Nacos.mergeNew s.nacos.newService services } }).1 = none := by
  unfold Nacos.Build at h
  dsimp only at h
  split at h
  · simp at h
  · rename_i heq
    rw [heq]

theorem empty_of_dot_key (ns name ip name2 ip2 : String)
    (hdot : strings.HasPrefix ns "." = false)
    (h : Nacos.svcName ns name ip = Nacos.svcName "" name2 ip2) : ns = "" := by
  have hd := congrArg String.data h
  rw [Nacos.svcName_data, Nacos.svcName_data] at hd
  cases hn : ns.data with
  | nil => exact String.ext hn
  | cons c cs =>
    rw [hn] at hd
    have he : ("" : String).data = [] := rfl
    rw [he] at hd
    simp only [List.nil_append, List.cons_append, List.cons.injEq] at hd
    unfold strings.HasPrefix at hdot
    rw [hn] at hdot
    simp [List.isPrefixOf, hd.1] at hdot

/-- C19, counterexample: the list holds a record with an empty registry-namespace whose only
endpoint has the key `.a.b.c`, which the empty old state does not hold; a record before it
with the registry-namespace `.a` has the same key and takes the map entry, and `Build` returns
nil and adopts that entry. -/
theorem Nacos.Build_empty_namespace_shadowed :
    exRecordNoNamespaceSameKey.NacosNs = "" ∧
    Nacos.svcName exRecordNoNamespaceSameKey.NacosNs exRecordNoNamespaceSameKey.Name "b.c" =
      ".a.b.c" ∧
    GoMap.contains Nacos.init.oldService ".a.b.c" = false ∧
    (Nacos.Build Backend.allOk (Run.start Nacos.init ())
      [exRecordDotNamespace, exRecordNoNamespaceSameKey]).1 = none ∧
    (Nacos.Build Backend.allOk (Run.start Nacos.init ())
      [exRecordDotNamespace, exRecordNoNamespaceSameKey]).2.nacos.oldService =
        [(".a.b.c", exRecordDotNamespace)] := by
  decide

theorem GoMap.mem_of_get? {K V : Type} [DecidableEq K] (m : GoMap K V) (k : K) (v : V)
    (h : GoMap.get? m k = some v) : (k, v) ∈ m := by
  induction m with
  | nil => simp [GoMap.get?] at h
  | cons p rest ih =>
    obtain ⟨k', v'⟩ := p
    by_cases hk : k' = k
    · simp only [GoMap.get?, hk, if_true, Option.some.injEq] at h
      rw [hk, h]; exact List.mem_cons_self _ _
    · simp only [GoMap.get?, hk, if_false] at h
      exact List.mem_cons_of_mem _ (ih h)

theorem Nacos.generateNamespaceClient_calls {W : Type} (B : Backend W) (s : Run W)
    (ns : String) (hns : ns ≠ "")
    (hcl : ∀ kv ∈ s.nacos.namespaceClients, kv.2.param.ClientConfig.NamespaceId = kv.1) :
    (∃ l, (Nacos.generateNamespaceClient B s ns).2.calls = s.calls ++ l ∧
      ∀ c ∈ l, Call.namespaceId c ≠ "") ∧
    (∀ client, (Nacos.generateNamespaceClient B s ns).1 = .ok client →
      client.param.ClientConfig.NamespaceId ≠ "") := by
  cases hg : GoMap.get? s.nacos.namespaceClients ns with
  | some client =>
    have key : Nacos.generateNamespaceClient B s ns = (.ok client, s) := by
      unfold Nacos.generateNamespaceClient
      rw [hg]
    rw [key]
    refine ⟨⟨[], by simp, by simp⟩, ?_⟩
    intro c hc
    simp only [Except.ok.injEq] at hc
    have := hcl _ (GoMap.mem_of_get? _ _ _ hg)
    simp only at this
    rw [← hc, this]; exact hns
  | none =>
    obtain ⟨cc, hcc⟩ : ∃ cc : constant.ClientConfig, cc =
        (if s.nacos.username ≠ "" ∧ s.nacos.password ≠ "" then
          { NamespaceId := ns, TimeoutMs := 5000, NotLoadCacheAtStart := true,
            LogDir := "/tmp/nacos/log", CacheDir := "/tmp/nacos/cache", LogLevel := "debug",
            Username := s.nacos.username, Password := s.nacos.password }
        else
          { NamespaceId := ns, TimeoutMs := 5000, NotLoadCacheAtStart := true,
            LogDir := "/tmp/nacos/log", CacheDir := "/tmp/nacos/cache", LogLevel := "debug",
            Username := "", Password := "" }) := ⟨_, rfl⟩
    have hccns : cc.NamespaceId = ns := by rw [hcc]; split <;> rfl
    obtain ⟨param, hparam⟩ : ∃ param : vo.NacosClientParam, param =
        { ClientConfig := cc,
          ServerConfigs := [{ IpAddr := s.nacos.address, Port := uint64 s.nacos.port }] } :=
      ⟨_, rfl⟩
    have hpns : param.ClientConfig.NamespaceId = ns := by rw [hparam]; exact hccns
    have key : Nacos.generateNamespaceClient B s ns =
        (match (B.NewNamingClient s.world param).1 with
         | some err =>
           (.error ("failed to create namespace client for " ++ ns ++ ": " ++ err),
            { s with world := (B.NewNamingClient s.world param).2,
                     calls := s.calls ++ [Call.NewNamingClient param],
                     failed := if (B.NewNamingClient s.world param).1.isSome then
                                 s.failed ++ [Call.NewNamingClient param]
                               else s.failed })
         | none =>
           (.ok { param := param },
            { s with world := (B.NewNamingClient s.world param).2,
                     calls := s.calls ++ [Call.NewNamingClient param],
                     failed := if (B.NewNamingClient s.world param).1.isSome then
                                 s.failed ++ [Call.NewNamingClient param]
                               else s.failed })) := by
      subst hparam hcc
      unfold Nacos.generateNamespaceClient
      rw [hg]
    rw [key]
    have hone : ∀ c ∈ [Call.NewNamingClient param], Call.namespaceId c ≠ "" := by
      intro c h
      simp only [List.mem_singleton] at h
      rw [h]
      simp only [Call.namespaceId]
      rw [hpns]; exact hns
    cases hres : (B.NewNamingClient s.world param).1 with
    | some err =>
      dsimp only
      exact ⟨⟨_, rfl, hone⟩, by intro c hc; simp at hc⟩
    | none =>
      dsimp only
      refine ⟨⟨_, rfl, hone⟩, ?_⟩
      intro c hc
      simp only [Except.ok.injEq] at hc
      rw [← hc]
      dsimp only
      rw [hpns]; exact hns

theorem Nacos.registerInstances_calls {W : Type} (B : Backend W) (client : NamingClient)
    (service : Service) (hc : client.param.ClientConfig.NamespaceId ≠ "")
    (ips : List String) (s : Run W) :
    ∃ l, (Nacos.registerInstances B client service ips s).2.calls = s.calls ++ l ∧
      ∀ c ∈ l, Call.namespaceId c ≠ "" := by
  induction ips generalizing s with
  | nil => exact ⟨[], by simp [Nacos.registerInstances], by simp⟩
  | cons ip ips ih =>
    simp only [Nacos.registerInstances]
    have hone : ∀ c ∈ [Call.RegisterInstance client (Nacos.registerParam service ip)],
        Call.namespaceId c ≠ "" := by
      intro c h
      simp only [List.mem_singleton] at h
      rw [h]; exact hc
    split
    · exact ⟨_, rfl, hone⟩
    · split
      · exact ⟨_, rfl, hone⟩
      · obtain ⟨l, h1, h2⟩ := ih
          { s with
            world := (B.RegisterInstance s.world client (Nacos.registerParam service ip)).2,
            calls := s.calls ++ [Call.RegisterInstance client (Nacos.registerParam service ip)],
            failed :=
              if ((B.RegisterInstance s.world client (Nacos.registerParam service ip)).1.2.isSome ||
                  !(B.RegisterInstance s.world client (Nacos.registerParam service ip)).1.1) = true
              then s.failed ++ [Call.RegisterInstance client (Nacos.registerParam service ip)]
              else s.failed }
        refine ⟨Call.RegisterInstance client (Nacos.registerParam service ip) :: l, ?_, ?_⟩
        · rw [h1]; simp
        · intro c h
          rcases List.mem_cons.mp h with h | h
          · rw [h]; exact hc
          · exact h2 c h

theorem Nacos.deregisterInstances_calls {W : Type} (B : Backend W) (client : NamingClient)
    (service : Service) (hc : client.param.ClientConfig.NamespaceId ≠ "")
    (ips : List String) (s : Run W) :
    ∃ l, (Nacos.deregisterInstances B client service ips s).2.calls = s.calls ++ l ∧
      ∀ c ∈ l, Call.namespaceId c ≠ "" := by
  induction ips generalizing s with
  | nil => exact ⟨[], by simp [Nacos.deregisterInstances], by simp⟩
  | cons ip ips ih =>
    simp only [Nacos.deregisterInstances]
    have hone : ∀ c ∈ [Call.DeregisterInstance client (Nacos.deregisterParam service ip)],
        Call.namespaceId c ≠ "" := by
      intro c h
      simp only [List.mem_singleton] at h
      rw [h]; exact hc
    split
    · exact ⟨_, rfl, hone⟩
    · split
      · exact ⟨_, rfl, hone⟩
      · obtain ⟨l, h1, h2⟩ := ih
          { s with
            world := (B.DeregisterInstance s.world client (Nacos.deregisterParam service ip)).2,
            calls := s.calls ++
              [Call.DeregisterInstance client (Nacos.deregisterParam service ip)],
            failed :=
              if ((B.DeregisterInstance s.world client
                    (Nacos.deregisterParam service ip)).1.2.isSome ||
                  !(B.DeregisterInstance s.world client
                    (Nacos.deregisterParam service ip)).1.1) = true
              then s.failed ++ [Call.DeregisterInstance client (Nacos.deregisterParam service ip)]
              else s.failed }
        refine ⟨Call.DeregisterInstance client (Nacos.deregisterParam service ip) :: l, ?_, ?_⟩
        · rw [h1]; simp
        · intro c h
          rcases List.mem_cons.mp h with h | h
          · rw [h]; exact hc
          · exact h2 c h

theorem Nacos.registerService_calls {W : Type} (B : Backend W) (s : Run W) (service : Service)
    (hcl : ∀ kv ∈ s.nacos.namespaceClients, kv.2.param.ClientConfig.NamespaceId = kv.1) :
    ∃ l, (Nacos.registerService B s service).2.calls = s.calls ++ l ∧
      ∀ c ∈ l, Call.namespaceId c ≠ "" := by
  unfold Nacos.registerService
  dsimp only
  by_cases hns : service.NacosNs = ""
  · rw [if_pos hns]
    exact ⟨[], by simp, by simp⟩
  · rw [if_neg hns]
    obtain ⟨⟨l1, g1, g2⟩, g3⟩ := Nacos.generateNamespaceClient_calls B s service.NacosNs hns hcl
    split
    · rename_i e s2 heq
      rw [heq] at g1
      exact ⟨l1, g1, g2⟩
    · rename_i client s2 heq
      rw [heq] at g1 g3
      obtain ⟨l2, r1, r2⟩ := Nacos.registerInstances_calls B client service (g3 client rfl)
        service.IP s2
      refine ⟨l1 ++ l2, ?_, ?_⟩
      · rw [r1, g1, List.append_assoc]
      · intro c h
        rcases List.mem_append.mp h with h | h
        · exact g2 c h
        · exact r2 c h

theorem Nacos.deregisterService_calls {W : Type} (B : Backend W) (s : Run W)
    (service : Service)
    (hcl : ∀ kv ∈ s.nacos.namespaceClients, kv.2.param.ClientConfig.NamespaceId = kv.1) :
    ∃ l, (Nacos.deregisterService B s service).2.calls = s.calls ++ l ∧
      ∀ c ∈ l, Call.namespaceId c ≠ "" := by
  unfold Nacos.deregisterService
  dsimp only
  by_cases hns : service.NacosNs = ""
  · rw [if_pos hns]
    exact ⟨[], by simp, by simp⟩
  · rw [if_neg hns]
    obtain ⟨⟨l1, g1, g2⟩, g3⟩ := Nacos.generateNamespaceClient_calls B s service.NacosNs hns hcl
    split
    · rename_i e s2 heq
      rw [heq] at g1
      exact ⟨l1, g1, g2⟩
    · rename_i client s2 heq
      rw [heq] at g1 g3
      obtain ⟨l2, r1, r2⟩ := Nacos.deregisterInstances_calls B client service (g3 client rfl)
        service.IP s2
      refine ⟨l1 ++ l2, ?_, ?_⟩
      · rw [r1, g1, List.append_assoc]
      · intro c h
        rcases List.mem_append.mp h with h | h
        · exact g2 c h
        · exact r2 c h

theorem Nacos.registerAll_calls {W : Type} (B : Backend W) (l : List Service) (s : Run W)
    (hcl : ∀ kv ∈ s.nacos.namespaceClients, kv.2.param.ClientConfig.NamespaceId = kv.1) :
    ∃ made, (Nacos.registerAll B l s).2.calls = s.calls ++ made ∧
      ∀ c ∈ made, Call.namespaceId c ≠ "" := by
  induction l generalizing s with
  | nil => exact ⟨[], by simp [Nacos.registerAll], by simp⟩
  | cons svc rest ih =>
    obtain ⟨l1, a1, a2⟩ := Nacos.registerService_calls B s svc hcl
    have hf := Nacos.registerService_frame B s svc
    simp only [Nacos.registerAll]
    cases hr : (Nacos.registerService B s svc).1 with
    | some err =>
      dsimp only
      exact ⟨l1, a1, a2⟩
    | none =>
      dsimp only
      obtain ⟨l2, b1, b2⟩ := ih
        { (Nacos.registerService B s svc).2 with
          ops := (Nacos.registerService B s svc).2.ops ++
            [{ register := true, service := svc, err := none }] }
        (by dsimp only; rw [hf.1]; exact hcl)
      dsimp only at b1
      refine ⟨l1 ++ l2, ?_, ?_⟩
      · rw [b1, a1, List.append_assoc]
      · intro c h
        rcases List.mem_append.mp h with h | h
        · exact a2 c h
        · exact b2 c h

theorem Nacos.deregisterAll_calls {W : Type} (B : Backend W) (l : List Service) (s : Run W)
    (hcl : ∀ kv ∈ s.nacos.namespaceClients, kv.2.param.ClientConfig.NamespaceId = kv.1) :
    ∃ made, (Nacos.deregisterAll B l s).2.calls = s.calls ++ made ∧
      ∀ c ∈ made, Call.namespaceId c ≠ "" := by
  induction l generalizing s with
  | nil => exact ⟨[], by simp [Nacos.deregisterAll], by simp⟩
  | cons svc rest ih =>
    obtain ⟨l1, a1, a2⟩ := Nacos.deregisterService_calls B s svc hcl
    have hf := Nacos.deregisterService_frame B s svc
    simp only [Nacos.deregisterAll]
    cases hr : (Nacos.deregisterService B s svc).1 with
    | some err =>
      dsimp only
      exact ⟨l1, a1, a2⟩
    | none =>
      dsimp only
      obtain ⟨l2, b1, b2⟩ := ih
        { (Nacos.deregisterService B s svc).2 with
          ops := (Nacos.deregisterService B s svc).2.ops ++
            [{ register := false, service := svc, err := none }] }
        (by dsimp only; rw [hf.1]; exact hcl)
      dsimp only at b1
      refine ⟨l1 ++ l2, ?_, ?_⟩
      · rw [b1, a1, List.append_assoc]
      · intro c h
        rcases List.mem_append.mp h with h | h
        · exact a2 c h
        · exact b2 c h

/-- No SDK call of a `Build` is made under the empty registry-namespace, when the connection
map holds every client under its own registry-namespace. -/
theorem Nacos.Build_calls {W : Type} (B : Backend W) (s : Run W) (services : List Service)
    (hcl : ∀ kv ∈ s.nacos.namespaceClients, kv.2.param.ClientConfig.NamespaceId = kv.1) :
    ∃ made, (Nacos.Build B s services).2.calls = s.calls ++ made ∧
      ∀ c ∈ made, Call.namespaceId c ≠ "" := by
  obtain ⟨s1, hs1⟩ : ∃ s1 : Run W, s1 = { s with nacos := { s.nacos with
    newService := Nacos.mergeNew s.nacos.newService services } } := ⟨_, rfl⟩
  obtain ⟨addSvc, hadd⟩ : ∃ a, a = Nacos.onlyIn s1.nacos.newService s1.nacos.oldService :=
    ⟨_, rfl⟩
  obtain ⟨delSvc, hdel⟩ : ∃ a, a = Nacos.onlyIn s1.nacos.oldService s1.nacos.newService :=
    ⟨_, rfl⟩
  have key : Nacos.Build B s services =
      (match Nacos.registerAll B addSvc s1 with
       | (some err, s) => (some err, s)
       | (none, s) =>
         match Nacos.deregisterAll B delSvc s with
         | (some err, s) => (some err, s)
         | (none, s) =>
           (none, { s with nacos := { s.nacos with
             oldService := s.nacos.newService, newService := [] } })) := by
    subst hdel hadd hs1
    rfl
  have hs1c : s1.calls = s.calls := by rw [hs1]
  have hs1cl : ∀ kv ∈ s1.nacos.namespaceClients,
      kv.2.param.ClientConfig.NamespaceId = kv.1 := by rw [hs1]; exact hcl
  rw [key]
  obtain ⟨l1, a1, a2⟩ := Nacos.registerAll_calls B addSvc s1 hs1cl
  obtain ⟨_, _, f1, _, _⟩ := Nacos.registerAll_spec B addSvc s1
  cases hr : Nacos.registerAll B addSvc s1 with
  | mk e1 s2 =>
    rw [hr] at a1 f1
    dsimp only at a1 f1
    cases e1 with
    | some err =>
      dsimp only
      exact ⟨l1, by rw [a1, hs1c], a2⟩
    | none =>
      dsimp only
      obtain ⟨l2, b1, b2⟩ := Nacos.deregisterAll_calls B delSvc s2 (by rw [f1]; exact hs1cl)
      have hall : ∀ c ∈ l1 ++ l2, Call.namespaceId c ≠ "" := by
        intro c h
        rcases List.mem_append.mp h with h | h
        · exact a2 c h
        · exact b2 c h
      cases hd : Nacos.deregisterAll B delSvc s2 with
      | mk e2 s3 =>
        rw [hd] at b1
        dsimp only at b1
        cases e2 with
        | some err =>
          dsimp only
          exact ⟨l1 ++ l2, by rw [b1, a1, hs1c, List.append_assoc], hall⟩
        | none =>
          dsimp only
          exact ⟨l1 ++ l2, by rw [b1, a1, hs1c, List.append_assoc], hall⟩

/-- C19, amended: let no registry-namespace begin with a dot, in the records list and in the
entries the new-state map still holds, each of which is stored under a key of its own record.
Then for every records list that contains a record with an empty registry-namespace and an
endpoint whose key is not in the old state, `Build` returns an error and leaves the old state
unchanged.  And a record is never registered under the empty registry-namespace: when the
connection map holds every client under its own registry-namespace, as the empty map of every
state the code reaches does, no SDK call of the `Build`, register calls included, is made
under the empty registry-namespace. -/
theorem Nacos.Build_fails_on_empty_namespace {W : Type} (B : Backend W) (s : Run W)
    (services : List Service) (svc : Service) (ip : String)
    (hkeyed : ∀ kv ∈ s.nacos.newService, Nacos.wellKeyed kv)
    (hdot : ∀ r ∈ services, strings.HasPrefix r.NacosNs "." = false)
    (hsvc : svc ∈ services) (hns : svc.NacosNs = "") (hip : ip ∈ svc.IP)
    (hold : GoMap.contains s.nacos.oldService (Nacos.svcName svc.NacosNs svc.Name ip) = false) :
    (Nacos.Build B s services).1 ≠ none ∧
    (Nacos.Build B s services).2.nacos.oldService = s.nacos.oldService ∧
    ((∀ kv ∈ s.nacos.namespaceClients, kv.2.param.ClientConfig.NamespaceId = kv.1) →
      ∀ c ∈ (Nacos.Build B s services).2.calls.drop s.calls.length,
        Call.namespaceId c ≠ "") := by
  obtain ⟨_, m2, m3⟩ := Nacos.mergeNew_spec services s.nacos.newService
  obtain ⟨r, hr⟩ := GoMap.mem_of_contains _ _ (m2 svc hsvc ip hip)
  have hrns : r.NacosNs = "" := by
    rcases m3 _ hr with h | ⟨h1, ip2, _, h3⟩
    · obtain ⟨⟨ip2, hk⟩, hd⟩ := hkeyed _ h
      simp only at hk hd
      rw [hns] at hk
      exact empty_of_dot_key _ _ _ _ _ hd hk.symm
    · simp only at h1 h3
      rw [hns] at h3
      exact empty_of_dot_key _ _ _ _ _ (hdot r h1) h3.symm
  have hmem := Nacos.mem_onlyIn _ _ _ _ hr hold
  have hfail : (Nacos.Build B s services).1 ≠ none := by
    intro hnone
    exact Nacos.registerAll_fails_of_empty_namespace B _ _ r hmem hrns
      (Nacos.Build_ok_registerAll B s services hnone)
  obtain ⟨_, _, _, _, h4, _⟩ := Nacos.Build_spec B s services
  refine ⟨hfail, (h4 hfail).1, ?_⟩
  intro hcl c hc
  obtain ⟨made, c1, c2⟩ := Nacos.Build_calls B s services hcl
  rw [c1, List.drop_left] at hc
  exact c2 c hc

/-- C19, witness: on a fresh adapter, a list of a record in `public` and a record without
registry-namespace makes `Build` fail and leaves the old state empty; the only register call
made is the one for the record in `public`, and none of the calls is under the empty
registry-namespace. -/
theorem Nacos.Build_fails_on_empty_namespace_witness :
    (Nacos.Build Backend.allOk (Run.start Nacos.init ())
      [exRecordOne, exRecordNoNamespace]).1 ≠ none ∧
    (Nacos.Build Backend.allOk (Run.start Nacos.init ())
      [exRecordOne, exRecordNoNamespace]).2.nacos.oldService = [] ∧
    (Nacos.Build Backend.allOk (Run.start Nacos.init ())
      [exRecordOne, exRecordNoNamespace]).2.calls.filterMap Call.registered =
        [("public", "web", "10.0.0.1")] ∧
    (∀ c ∈ (Nacos.Build Backend.allOk (Run.start Nacos.init ())
      [exRecordOne, exRecordNoNamespace]).2.calls, Call.namespaceId c ≠ "") :=
  ⟨(Nacos.Build_fails_on_empty_namespace Backend.allOk (Run.start Nacos.init ())
      [exRecordOne, exRecordNoNamespace] exRecordNoNamespace "10.0.0.9"
      (by intro kv h; simp [Run.start, Nacos.init] at h) (by decide) (by decide) (by decide)
      (by decide) (by decide)).1,
   (Nacos.Build_fails_on_empty_namespace Backend.allOk (Run.start Nacos.init ())
      [exRecordOne, exRecordNoNamespace] exRecordNoNamespace "10.0.0.9"
      (by intro kv h; simp [Run.start, Nacos.init] at h) (by decide) (by decide) (by decide)
      (by decide) (by decide)).2.1,
   by decide,
   (Nacos.Build_fails_on_empty_namespace Backend.allOk (Run.start Nacos.init ())
      [exRecordOne, exRecordNoNamespace] exRecordNoNamespace "10.0.0.9"
      (by intro kv h; simp [Run.start, Nacos.init] at h) (by decide) (by decide) (by decide)
      (by decide) (by decide)).2.2
      (by intro kv h; simp [Run.start, Nacos.init] at h)⟩

/-! ## C20: two records with the same key and different ports -/

theorem Nacos.get?_fold_of_contains (svc : Service) (ips : List String) (k : String) :
    ∀ m : GoMap String Service, GoMap.contains m k = true →
      GoMap.get? (ips.foldl (fun m ip =>
        if GoMap.contains m (Nacos.svcName svc.NacosNs svc.Name ip) then m
        else GoMap.put m (Nacos.svcName svc.NacosNs svc.Name ip) svc) m) k = GoMap.get? m k := by
  induction ips with
  | nil => intro m _; rfl
  | cons ip ips ih =>
    intro m hk
    simp only [List.foldl_cons]
    by_cases hc : GoMap.contains m (Nacos.svcName svc.NacosNs svc.Name ip) = true
    · rw [if_pos hc]; exact ih m hk
    · rw [if_neg hc]
      have hne : Nacos.svcName svc.NacosNs svc.Name ip ≠ k := by
        intro e; rw [e] at hc; exact hc hk
      rw [ih _ (by rw [GoMap.contains_put, hk]; simp), GoMap.get?_put_other _ _ _ _ hne]

theorem Nacos.get?_fold_of_no_key (svc : Service) (ips : List String) (k : String)
    (hno : ∀ ip ∈ ips, Nacos.svcName svc.NacosNs svc.Name ip ≠ k) :
    ∀ m : GoMap String Service,
      GoMap.get? (ips.foldl (fun m ip =>
        if GoMap.contains m (Nacos.svcName svc.NacosNs svc.Name ip) then m
        else GoMap.put m (Nacos.svcName svc.NacosNs svc.Name ip) svc) m) k = GoMap.get? m k := by
  induction ips with
  | nil => intro m; rfl
  | cons ip ips ih =>
    intro m
    have hne := hno ip (List.mem_cons_self _ _)
    have ih2 := ih (fun ip2 h => hno ip2 (List.mem_cons_of_mem _ h))
    simp only [List.foldl_cons]
    by_cases hc : GoMap.contains m (Nacos.svcName svc.NacosNs svc.Name ip) = true
    · rw [if_pos hc]; exact ih2 m
    · rw [if_neg hc, ih2, GoMap.get?_put_other _ _ _ _ hne]

theorem Nacos.get?_fold_of_key (svc : Service) (ips : List String) (k : String)
    (hkey : ∃ ip ∈ ips, Nacos.svcName svc.NacosNs svc.Name ip = k) :
    ∀ m : GoMap String Service, GoMap.contains m k = false →
      GoMap.get? (ips.foldl (fun m ip =>
        if GoMap.contains m (Nacos.svcName svc.NacosNs svc.Name ip) then m
        else GoMap.put m (Nacos.svcName svc.NacosNs svc.Name ip) svc) m) k = some svc := by
  induction ips with
  | nil => obtain ⟨ip, h, _⟩ := hkey; simp at h
  | cons ip ips ih =>
    intro m hk
    simp only [List.foldl_cons]
    by_cases he : Nacos.svcName svc.NacosNs svc.Name ip = k
    · rw [he, if_neg (by simp [hk])]
      rw [Nacos.get?_fold_of_contains svc ips k _ (by rw [GoMap.contains_put]; simp),
        GoMap.get?_put_self]
    · obtain ⟨ip2, h2, h3⟩ := hkey
      have hrest : ∃ ip ∈ ips, Nacos.svcName svc.NacosNs svc.Name ip = k := by
        rcases List.mem_cons.mp h2 with h | h
        · rw [h] at h3; exact absurd h3 he
        · exact ⟨ip2, h, h3⟩
      by_cases hc : GoMap.contains m (Nacos.svcName svc.NacosNs svc.Name ip) = true
      · rw [if_pos hc]; exact ih hrest m hk
      · rw [if_neg hc]
        apply ih hrest
        rw [GoMap.contains_put, hk]
        simp [he]

theorem Nacos.get?_mergeNew_of_contains (services : List Service) (k : String) :
    ∀ m : GoMap String Service, GoMap.contains m k = true →
      GoMap.get? (Nacos.mergeNew m services) k = GoMap.get? m k := by
  induction services with
  | nil => intro m _; rfl
  | cons svc rest ih =>
    intro m hk
    rw [Nacos.mergeNew_cons]
    have h1 : GoMap.get? (Nacos.mergeRecord m svc) k = GoMap.get? m k :=
      Nacos.get?_fold_of_contains svc svc.IP k m hk
    have h2 : GoMap.contains (Nacos.mergeRecord m svc) k = true := by
      unfold GoMap.contains at hk ⊢
      rw [h1]; exact hk
    rw [ih _ h2, h1]

theorem Nacos.get?_mergeNew_of_no_key (services : List Service) (k : String)
    (hno : ∀ r ∈ services, ∀ ip ∈ r.IP, Nacos.svcName r.NacosNs r.Name ip ≠ k) :
    ∀ m : GoMap String Service,
      GoMap.get? (Nacos.mergeNew m services) k = GoMap.get? m k := by
  induction services with
  | nil => intro m; rfl
  | cons svc rest ih =>
    intro m
    rw [Nacos.mergeNew_cons, ih (fun r h => hno r (List.mem_cons_of_mem _ h))]
    exact Nacos.get?_fold_of_no_key svc svc.IP k (hno svc (List.mem_cons_self _ _)) m

theorem Nacos.mergeNew_append (m : GoMap String Service) (l1 l2 : List Service) :
    Nacos.mergeNew m (l1 ++ l2) = Nacos.mergeNew (Nacos.mergeNew m l1) l2 := by
  unfold Nacos.mergeNew
  rw [List.foldl_append]

/-- First record wins: when the new-state map is empty at the start of `Build`, the desired
state holds, under a key of the record `first`, that record, if no record before it in the
list has the key; whatever comes later in the list, a record with the same
registry-namespace, name and endpoints and another port included, does not replace it. -/
theorem Nacos.mergeNew_first_wins (before later : List Service) (first : Service)
    (ip : String) (hip : ip ∈ first.IP)
    (hbefore : ∀ r ∈ before, ∀ ip2 ∈ r.IP, Nacos.svcName r.NacosNs r.Name ip2 ≠
      Nacos.svcName first.NacosNs first.Name ip) :
    GoMap.get? (Nacos.mergeNew [] (before ++ first :: later))
      (Nacos.svcName first.NacosNs first.Name ip) = some first := by
  rw [Nacos.mergeNew_append, Nacos.mergeNew_cons]
  have h0 : GoMap.get? (Nacos.mergeNew [] before) (Nacos.svcName first.NacosNs first.Name ip)
      = none := by
    rw [Nacos.get?_mergeNew_of_no_key before _ hbefore]; rfl
  have h1 : GoMap.get? (Nacos.mergeRecord (Nacos.mergeNew [] before) first)
      (Nacos.svcName first.NacosNs first.Name ip) = some first :=
    Nacos.get?_fold_of_key first first.IP _ ⟨ip, hip, rfl⟩ _ (by simp [GoMap.contains, h0])
  rw [Nacos.get?_mergeNew_of_contains later _ _ (by simp [GoMap.contains, h1]), h1]

/-- C20, the code at the failing inputs.  On a fresh adapter the list of the two records of
`public/web` at `10.0.0.1`, ports 8080 and 8443, is built with the one register call for port
8080.  But (1) after a `Build` of `exRecordOne` (the same key, port 80) has failed because the
backend was down, the old state is still empty, and the successful `Build` of the two records
registers `10.0.0.1` with port 80, the port of the record left in the new-state map; and (2) on
a fresh adapter, with a third record of `public/web` that has the endpoints `10.0.0.1` and
`10.0.0.2` and port 9000 in the list, `10.0.0.1` is registered with port 8080 and with port
9000. -/
theorem Nacos.Build_register_port_not_first :
    (Nacos.Build Backend.allOk (Run.start Nacos.init ())
      [exRecordPortA, exRecordPortB]).2.calls.filterMap Call.registeredPort =
        [("public", "web", "10.0.0.1", 8080)] ∧
    exAfterFailedBuild.nacos.oldService = [] ∧
    (Nacos.Build Backend.downThenUp (Run.start exAfterFailedBuild.nacos true)
      [exRecordPortA, exRecordPortB]).1 = none ∧
    (Nacos.Build Backend.downThenUp (Run.start exAfterFailedBuild.nacos true)
      [exRecordPortA, exRecordPortB]).2.calls.filterMap Call.registeredPort =
        [("public", "web", "10.0.0.1", 80)] ∧
    (Nacos.Build Backend.allOk (Run.start Nacos.init ())
      [exRecordPortA, exRecordPortB, exRecordWider]).1 = none ∧
    (Nacos.Build Backend.allOk (Run.start Nacos.init ())
      [exRecordPortA, exRecordPortB, exRecordWider]).2.calls.filterMap Call.registeredPort =
        [("public", "web", "10.0.0.1", 8080), ("public", "web", "10.0.0.1", 9000),
         ("public", "web", "10.0.0.2", 9000)] := by
  decide

end NacosBridge
